import Mathlib

/-!
# A verification model of the sim2h switchboard (crates/sim2h/src/lib.rs)

This file gives a shallow embedding of the stateful coordination engine of
the sim2h switchboard and proves properties of its message handlers.

The embedding mirrors `crates/sim2h/src/lib.rs`.  The `Space`,
`ConnectionState` and `AspectList` types live in the `connection_state` and
`cache` modules of the crate, which are not part of the sources at hand;
their operations are modelled from the specification (sections 3, 4.2 and
4.3) and are marked `Modelled from the spec:` in their doc comments.

Conventions of the embedding:
* hashes, agent ids and URIs are opaque identifiers, embedded as `Nat`;
* `im::HashMap` becomes an association list (`aget`/`aput`/`adel` below)
  whose operations realize map semantics (unique keys, unspecified order);
* Rust's `request_id : String` is either empty or carries an agent id, so
  it is embedded as `Option AgentId` (`none` standing for `""`);
* every call of `Sim2h::send` and every `WssCommand::CloseConnection`
  issued by a handler is recorded, in issue order, in an `OutCmd` list;
* `thread_rng` shuffling is embedded as an arbitrary reordering function
  carried in the state (`shuffleFn`), and the hash-to-location projections
  of the crypto system as the `entryLocation`/`agentLocation` functions;
* a Rust `panic!` is a distinguished handler outcome (`Outcome.panicked`).
-/

/-- Opaque connection identifier (Rust `Lib3hUri`). -/
abbrev Uri := Nat

/-- Agent public key (Rust `AgentId` / `AgentPubKey`). -/
abbrev AgentId := Nat

/-- Opaque space identifier (Rust `SpaceHash`). -/
abbrev SpaceHash := Nat

/-- Content address of an entry (Rust `EntryHash`). -/
abbrev EntryHash := Nat

/-- Content address of an aspect (Rust `AspectHash`). -/
abbrev AspectHash := Nat

/-- A Rust `request_id : String`: `none` is the empty string, `some a` the
rendering of agent id `a` (the only non-empty request ids the switchboard
produces embed an agent id, and `AgentPubKey::from` reads one back). -/
abbrev RequestId := Option AgentId

/-- Opaque binary payload bytes (Rust `Opaque`). -/
abbrev Payload := Nat

/-- First value bound to key `k` in an association list
(lookup of `im::HashMap`). -/
def aget {K V : Type} [DecidableEq K] (l : List (K × V)) (k : K) : Option V :=
  (l.find? (fun p => decide (p.1 = k))).map Prod.snd

/-- Remove every binding of key `k` (removal of `im::HashMap`). -/
def adel {K V : Type} [DecidableEq K] (l : List (K × V)) (k : K) : List (K × V) :=
  l.filter (fun p => decide (¬ p.1 = k))

/-- Bind key `k` to `v`, replacing any previous binding
(insertion of `im::HashMap`). -/
def aput {K V : Type} [DecidableEq K] (l : List (K × V)) (k : K) (v : V) : List (K × V) :=
  adel l k ++ [(k, v)]

/-- Rust `SpaceData { request_id, space_address, agent_id }`. -/
structure SpaceData where
  requestId : RequestId
  spaceAddress : SpaceHash
  agentId : AgentId
  deriving DecidableEq

/-- Rust `DirectMessageData`. -/
structure DirectMessageData where
  spaceAddress : SpaceHash
  requestId : RequestId
  toAgentId : AgentId
  fromAgentId : AgentId
  content : Payload
  deriving DecidableEq

/-- Rust `EntryAspectData`; only the aspect address and an opaque blob for
the remaining fields are carried (sim2h never reads the others). -/
structure EntryAspectData where
  aspectAddress : AspectHash
  aspect : Payload
  deriving DecidableEq

/-- Rust `EntryData`: an entry address owning a collection of aspects. -/
structure EntryData where
  entryAddress : EntryHash
  aspectList : List EntryAspectData
  deriving DecidableEq

/-- Rust `ProvidedEntryData` (payload of `PublishEntry`). -/
structure ProvidedEntryData where
  spaceAddress : SpaceHash
  providerAgentId : AgentId
  entry : EntryData
  deriving DecidableEq

/-- Rust `GetListData`. -/
structure GetListData where
  requestId : RequestId
  spaceAddress : SpaceHash
  providerAgentId : AgentId
  deriving DecidableEq

/-- Rust `EntryListData`; `address_map : HashMap<EntryHash, Vec<AspectHash>>`. -/
structure EntryListData where
  spaceAddress : SpaceHash
  providerAgentId : AgentId
  requestId : RequestId
  addressMap : List (EntryHash × List AspectHash)
  deriving DecidableEq

/-- Rust `FetchEntryData`. -/
structure FetchEntryData where
  requestId : RequestId
  spaceAddress : SpaceHash
  providerAgentId : AgentId
  entryAddress : EntryHash
  aspectAddressList : Option (List AspectHash)
  deriving DecidableEq

/-- Rust `FetchEntryResultData`. -/
structure FetchEntryResultData where
  spaceAddress : SpaceHash
  providerAgentId : AgentId
  requestId : RequestId
  entry : EntryData
  deriving DecidableEq

/-- Rust `StoreEntryAspectData`. -/
structure StoreEntryAspectData where
  requestId : RequestId
  spaceAddress : SpaceHash
  providerAgentId : AgentId
  entryAddress : EntryHash
  entryAspect : EntryAspectData
  deriving DecidableEq

/-- Rust `QueryEntryData`. -/
structure QueryEntryData where
  spaceAddress : SpaceHash
  entryAddress : EntryHash
  requestId : RequestId
  requesterAgentId : AgentId
  query : Payload
  deriving DecidableEq

/-- Rust `QueryEntryResultData`. -/
structure QueryEntryResultData where
  spaceAddress : SpaceHash
  entryAddress : EntryHash
  requestId : RequestId
  requesterAgentId : AgentId
  responderAgentId : AgentId
  queryResult : Payload
  deriving DecidableEq

/-- Rust `StatusData` (payload of `StatusResponse`). -/
structure StatusData where
  spaces : Nat
  connections : Nat
  redundantCount : Nat
  version : Nat
  deriving DecidableEq

/-- Modelled from the spec: `WIRE_VERSION` is a compile-time constant
returned in `StatusResponse` (the `wire_message` module is not among the
sources at hand); its concrete value is irrelevant to the model. -/
def WIRE_VERSION : Nat := 1

/-- Rust `WireError` (only the variant the handlers construct, plus a
catch-all for the rest of the enum). -/
inductive WireError where
  | messageWhileInLimbo
  | other
  deriving DecidableEq

/-- Rust `ClientToLib3h` (client-to-server requests).  `fetchEntry` stands
for the protocol variants sim2h leaves unimplemented (wildcard match arm). -/
inductive ClientToLib3h where
  | joinSpace (d : SpaceData)
  | leaveSpace (d : SpaceData)
  | sendDirectMessage (d : DirectMessageData)
  | publishEntry (d : ProvidedEntryData)
  | queryEntry (d : QueryEntryData)
  | fetchEntry (d : FetchEntryData)
  deriving DecidableEq

/-- Rust `Lib3hToClient` (server-to-client requests). -/
inductive Lib3hToClient where
  | handleSendDirectMessage (d : DirectMessageData)
  | sendDirectMessageResult (d : DirectMessageData)
  | handleGetAuthoringEntryList (d : GetListData)
  | handleGetGossipingEntryList (d : GetListData)
  | handleFetchEntry (d : FetchEntryData)
  | handleStoreEntryAspect (d : StoreEntryAspectData)
  | handleQueryEntry (d : QueryEntryData)
  deriving DecidableEq

/-- Rust `Lib3hToClientResponse` (client-to-server responses).
`handleStoreEntryAspectResult` stands for the variants sim2h leaves
unimplemented (wildcard match arm). -/
inductive Lib3hToClientResponse where
  | handleSendDirectMessageResult (d : DirectMessageData)
  | handleGetAuthoringEntryListResult (d : EntryListData)
  | handleGetGossipingEntryListResult (d : EntryListData)
  | handleFetchEntryResult (d : FetchEntryResultData)
  | handleQueryEntryResult (d : QueryEntryResultData)
  | handleStoreEntryAspectResult
  deriving DecidableEq

/-- Rust `ClientToLib3hResponse` (server-to-client responses). -/
inductive ClientToLib3hResponse where
  | queryEntryResult (d : QueryEntryResultData)
  | otherResponse
  deriving DecidableEq

/-- Rust `WireMessage`. -/
inductive WireMessage where
  | ping
  | pong
  | status
  | statusResponse (d : StatusData)
  | clientToLib3h (m : ClientToLib3h)
  | clientToLib3hResponse (m : ClientToLib3hResponse)
  | lib3hToClient (m : Lib3hToClient)
  | lib3hToClientResponse (m : Lib3hToClientResponse)
  | err (e : WireError)
  deriving DecidableEq

/-- Modelled from the spec: per-connection lifecycle state
(`connection_state` module, not among the sources at hand): a connection is
either in limbo with an ordered queue of pending messages, or joined to a
space under an agent id.  `ConnectionState::new()` is `limbo []`. -/
inductive ConnectionState where
  | limbo (pending : List WireMessage)
  | joined (spaceAddress : SpaceHash) (agentId : AgentId)
  deriving DecidableEq

/-- Modelled from the spec: `AgentInfo { uri, .. }` of the space directory. -/
structure AgentInfo where
  uri : Uri
  deriving DecidableEq

/-- Modelled from the spec: an `AspectList` is a mapping from entry hashes
to sets of aspect hashes (`cache` module, not among the sources at hand). -/
abbrev AspectList := List (EntryHash × List AspectHash)

/-- Modelled from the spec: `AspectList::diff(a, b)` keeps, for every entry
of `a`, the aspects absent from `b`; entries with empty residue are
omitted. -/
def AspectList.diff (a b : AspectList) : AspectList :=
  a.filterMap (fun p =>
    let residue := p.2.filter (fun x =>
      match aget b p.1 with
      | none => true
      | some m => decide (¬ x ∈ m))
    if residue.isEmpty then none else some (p.1, residue))

/-- Modelled from the spec: the per-space directory (`Space` of the
`connection_state` module, not among the sources at hand): agent-to-URI
mapping, known aspects, and per-agent missing-aspect ledger. -/
structure Space where
  agents : List (AgentId × AgentInfo)
  allAspects : AspectList
  missingByAgent : List (AgentId × List (EntryHash × List AspectHash))
  deriving DecidableEq

/-- Modelled from the spec: `Space::new` holds no agents and no aspects. -/
def Space.new : Space :=
  { agents := [], allAspects := [], missingByAgent := [] }

/-- Modelled from the spec: `Space::join_agent(agent, uri)` inserts or
overwrites the agent-to-URI binding; it fails only if the URI is already
claimed by a different live agent in the same space. -/
def Space.joinAgent (sp : Space) (agent : AgentId) (uri : Uri) : Option Space :=
  if sp.agents.any (fun p => decide (p.2.uri = uri) && decide (¬ p.1 = agent)) then
    none
  else
    some { sp with agents := aput sp.agents agent ⟨uri⟩ }

/-- Modelled from the spec: `Space::remove_agent(agent)` drops the agent
from the directory and returns the remaining agent count. -/
def Space.removeAgent (sp : Space) (agent : AgentId) : Space × Nat :=
  let ags := adel sp.agents agent
  ({ sp with agents := ags }, ags.length)

/-- Modelled from the spec: `Space::add_aspect(entry, aspect)` is
idempotent insertion into `all_aspects`. -/
def Space.addAspect (sp : Space) (entry : EntryHash) (aspect : AspectHash) : Space :=
  match aget sp.allAspects entry with
  | none => { sp with allAspects := aput sp.allAspects entry [aspect] }
  | some l =>
    if aspect ∈ l then sp
    else { sp with allAspects := aput sp.allAspects entry (l ++ [aspect]) }

/-- Modelled from the spec: `Space::add_missing_aspect(agent, entry,
aspect)` inserts into the missing-aspect ledger. -/
def Space.addMissingAspect (sp : Space) (agent : AgentId) (entry : EntryHash)
    (aspect : AspectHash) : Space :=
  let byEntry := (aget sp.missingByAgent agent).getD []
  let aspects := (aget byEntry entry).getD []
  let aspects' := if aspect ∈ aspects then aspects else aspects ++ [aspect]
  let ledger := aput sp.missingByAgent agent (aput byEntry entry aspects')
  { sp with missingByAgent := ledger }

/-- Modelled from the spec: `Space::remove_missing_aspect(agent, entry,
aspect)`; removing the last aspect for an (agent, entry) removes the entry,
removing the last entry removes the agent from the ledger. -/
def Space.removeMissingAspect (sp : Space) (agent : AgentId) (entry : EntryHash)
    (aspect : AspectHash) : Space :=
  match aget sp.missingByAgent agent with
  | none => sp
  | some byEntry =>
    match aget byEntry entry with
    | none => sp
    | some aspects =>
      let aspects' := aspects.filter (fun x => decide (¬ x = aspect))
      let byEntry' := if aspects'.isEmpty then adel byEntry entry
                      else aput byEntry entry aspects'
      let ledger := if byEntry'.isEmpty then adel sp.missingByAgent agent
                    else aput sp.missingByAgent agent byEntry'
      { sp with missingByAgent := ledger }

/-- Modelled from the spec: `Space::agents_with_missing_aspects()`. -/
def Space.agentsWithMissingAspects (sp : Space) : List AgentId :=
  sp.missingByAgent.map Prod.fst

/-- Modelled from the spec: `Space::agent_is_missing_all_aspects(agent,
entry, aspects)` is true iff every supplied aspect is in the agent's
missing ledger for that entry. -/
def Space.agentIsMissingAllAspects (sp : Space) (agent : AgentId)
    (entry : EntryHash) (aspects : List AspectHash) : Bool :=
  aspects.all (fun x =>
    match aget sp.missingByAgent agent with
    | none => false
    | some byEntry =>
      match aget byEntry entry with
      | none => false
      | some l => l.contains x)

/-- Modelled from the spec: `Space::agent_is_missing_some_aspect_for_entry`. -/
def Space.agentIsMissingSomeAspectForEntry (sp : Space) (agent : AgentId)
    (entry : EntryHash) : Bool :=
  match aget sp.missingByAgent agent with
  | none => false
  | some byEntry =>
    match aget byEntry entry with
    | none => false
    | some l => !l.isEmpty

/-- Modelled from the spec: `Space::agent_id_to_uri(agent)`. -/
def Space.agentIdToUri (sp : Space) (agent : AgentId) : Option Uri :=
  (aget sp.agents agent).map AgentInfo.uri

/-- Circular distance of two locations on the 32-bit ring. -/
def ringDist (x y : Nat) : Nat :=
  min ((x + 2 ^ 32 - y % 2 ^ 32) % 2 ^ 32) ((y + 2 ^ 32 - x % 2 ^ 32) % 2 ^ 32)

/-- Insertion into a list sorted by a `Nat × Nat` key (lexicographic). -/
def insertByKey {α : Type} (key : α → Nat × Nat) (x : α) : List α → List α
  | [] => [x]
  | y :: ys =>
    if (key x).1 < (key y).1 ∨ ((key x).1 = (key y).1 ∧ (key x).2 ≤ (key y).2) then
      x :: y :: ys
    else
      y :: insertByKey key x ys

/-- Insertion sort by a `Nat × Nat` key. -/
def sortByKey {α : Type} (key : α → Nat × Nat) : List α → List α
  | [] => []
  | x :: xs => insertByKey key x (sortByKey key xs)

/-- Modelled from the spec: `agents_supposed_to_hold_entry(loc, r)` returns
the `r` agents whose locations are closest to `loc` on the circular
keyspace, ties broken by agent id; all agents when there are at most `r`
(`naive_sharding` module, not among the sources at hand). -/
def Space.agentsSupposedToHoldEntry (sp : Space) (agentLocation : AgentId → Nat)
    (loc : Nat) (redundantCount : Nat) : List (AgentId × AgentInfo) :=
  if sp.agents.length ≤ redundantCount then sp.agents
  else
    (sortByKey (fun p => (ringDist (agentLocation p.1) loc, p.1)) sp.agents).take
      redundantCount

/-- Modelled from the spec: `aspects_in_shard_for_agent(agent, r)` is the
restriction of `all_aspects` to entries whose location places the agent
within the top-`r` closest. -/
def Space.aspectsInShardForAgent (sp : Space) (agentLocation : AgentId → Nat)
    (entryLocation : EntryHash → Nat) (agent : AgentId)
    (redundantCount : Nat) : AspectList :=
  sp.allAspects.filter (fun p =>
    (sp.agentsSupposedToHoldEntry agentLocation (entryLocation p.1)
        redundantCount).any (fun q => decide (q.1 = agent)))

/-- Rust `DhtAlgorithm`. -/
inductive DhtAlgorithm where
  | fullSync
  | naiveSharding (redundantCount : Nat)
  deriving DecidableEq

/-- The switchboard state (`Sim2h` / `Sim2hState`).  `shuffleFn` stands for
`thread_rng` shuffling, `entryLocation`/`agentLocation` for the crypto
system's hash-to-location projections; channels, tick counters and the
resync deadline are outside the per-message semantics modelled here. -/
structure Sim2h where
  connections : List (Uri × ConnectionState)
  spaces : List (SpaceHash × Space)
  openConnections : List Uri
  dhtAlgorithm : DhtAlgorithm
  shuffleFn : List AgentId → List AgentId
  entryLocation : EntryHash → Nat
  agentLocation : AgentId → Nat

/-- An outbound effect issued by a handler: a `Sim2h::send` call (which
forwards the frame to the socket when the URI is open) or a
`WssCommand::CloseConnection`. -/
inductive OutCmd where
  | sendMsg (agent : AgentId) (uri : Uri) (msg : WireMessage)
  | closeConnection (uri : Uri)
  deriving DecidableEq

/-- The errors a handler can return (`Sim2hError`); each constructor is one
of the distinct error strings of `crates/sim2h/src/lib.rs` and
`error.rs`. -/
inductive Sim2hError where
  | signerMismatch
  | spaceMismatch
  | verifyFailed
  | noConnection (uri : Uri)
  | noAgentInLimbo (uri : Uri)
  | noJoinedAgent (uri : Uri)
  | unvalidatedProxyAgent (agent : AgentId)
  | joinNotProxied
  | queryEntryInFullSync
  | notImplemented
  | uriClaimedByOtherAgent
  | recursionFuel
  deriving DecidableEq

/-- How a handler finished: `Ok(())`, `Err(e)`, or a Rust `panic!`. -/
inductive Outcome where
  | ok
  | err (e : Sim2hError)
  | panicked
  deriving DecidableEq

/-- Result of a handler: outcome, state after the call (partial mutations
persist on error, matching `&mut self`), and outbound effects in issue
order. -/
structure HRes where
  result : Outcome
  state : Sim2h
  out : List OutCmd

/-- `Sim2h::get_or_create_space`: ensure the space exists. -/
def Sim2h.getOrCreateSpace (st : Sim2h) (s : SpaceHash) : Sim2h :=
  match aget st.spaces s with
  | some _ => st
  | none => { st with spaces := aput st.spaces s Space.new }

/-- The space stored at `s` (total once `getOrCreateSpace` ran). -/
def Sim2h.getSpaceD (st : Sim2h) (s : SpaceHash) : Space :=
  (aget st.spaces s).getD Space.new

/-- Store back a space. -/
def Sim2h.setSpace (st : Sim2h) (s : SpaceHash) (sp : Space) : Sim2h :=
  { st with spaces := aput st.spaces s sp }

/-- `get_or_create_space` followed by an in-place mutation of the space. -/
def Sim2h.modifySpace (st : Sim2h) (s : SpaceHash) (f : Space → Space) : Sim2h :=
  let st1 := st.getOrCreateSpace s
  st1.setSpace s (f (st1.getSpaceD s))

/-- `Sim2h::lookup_joined`: the URI of an agent registered in a space. -/
def Sim2h.lookupJoined (st : Sim2h) (s : SpaceHash) (agent : AgentId) : Option Uri :=
  match aget st.spaces s with
  | none => none
  | some sp => sp.agentIdToUri agent

/-- The `StatusData` answered to a `Status` message. -/
def Sim2h.statusOf (st : Sim2h) : StatusData :=
  { spaces := st.spaces.length
    connections := st.openConnections.length
    redundantCount :=
      match st.dhtAlgorithm with
      | .fullSync => 0
      | .naiveSharding r => r
    version := WIRE_VERSION }

/-- The two list requests `Sim2h::join` issues right after registration
(`request_authoring_list` then `request_gossiping_list`). -/
def joinRequests (uri : Uri) (d : SpaceData) : List OutCmd :=
  [.sendMsg d.agentId uri
      (.lib3hToClient (.handleGetAuthoringEntryList
        { requestId := none, spaceAddress := d.spaceAddress,
          providerAgentId := d.agentId })),
   .sendMsg d.agentId uri
      (.lib3hToClient (.handleGetGossipingEntryList
        { requestId := none, spaceAddress := d.spaceAddress,
          providerAgentId := d.agentId }))]

/-- `Sim2h::disconnect`: close the socket, forget the connection and, for a
joined connection, drop the agent from its space, dropping the space when
it becomes empty. -/
def Sim2h.disconnect (st : Sim2h) (uri : Uri) : Sim2h × List OutCmd :=
  let st1 := { st with openConnections := st.openConnections.filter (fun u => decide (¬ u = uri)) }
  let old : Option ConnectionState := aget st1.connections uri
  let st2 := { st1 with connections := adel st1.connections uri }
  match old with
  | some (.joined s a) =>
    (match aget st2.spaces s with
     | some sp =>
       let r := sp.removeAgent a
       if r.2 = 0 then ({ st2 with spaces := adel st2.spaces s }, [.closeConnection uri])
       else (st2.setSpace s r.1, [.closeConnection uri])
     | none => (st2, [.closeConnection uri]))
  | _ => (st2, [.closeConnection uri])

/-- `Sim2h::leave`: a `LeaveSpace` is honoured only when it names exactly
the joined (space, agent) binding of the connection. -/
def Sim2h.leave (st : Sim2h) (uri : Uri) (d : SpaceData) : HRes :=
  match aget st.connections uri with
  | some (.joined s a) =>
    if ¬ d.agentId = a ∨ ¬ d.spaceAddress = s then ⟨.err .spaceMismatch, st, []⟩
    else
      let r := st.disconnect uri
      ⟨.ok, r.1, r.2⟩
  | _ => ⟨.err (.noJoinedAgent uri), st, []⟩

/-- `Sim2h::handle_incoming_connect`: a fresh limbo state for the URI
(replacing any previous state; spaces are untouched). -/
def Sim2h.handleIncomingConnect (st : Sim2h) (uri : Uri) : Sim2h :=
  { st with connections := aput st.connections uri (.limbo []) }

/-- `Sim2h::handle_unseen_aspects`: diff the reported list against the
space's known aspects and request a fetch for every unseen entry. -/
def Sim2h.handleUnseenAspects (st : Sim2h) (uri : Uri) (s : SpaceHash)
    (agent : AgentId) (listData : EntryListData) : Sim2h × List OutCmd :=
  let st1 := st.getOrCreateSpace s
  let unseen := AspectList.diff listData.addressMap (st1.getSpaceD s).allAspects
  (st1, unseen.map (fun p =>
    .sendMsg agent uri (.lib3hToClient (.handleFetchEntry
      { requestId := none, spaceAddress := s, providerAgentId := agent,
        entryAddress := p.1, aspectAddressList := some p.2 }))))

/-- `Sim2h::all_agents_except_one` under `get_or_create_space`. -/
def Sim2h.allAgentsExceptOne (st : Sim2h) (s : SpaceHash) (except : Option AgentId) :
    Sim2h × List (AgentId × AgentInfo) :=
  let st1 := st.getOrCreateSpace s
  (st1, (st1.getSpaceD s).agents.filter (fun p =>
    match except with
    | some e => decide (¬ p.1 = e)
    | none => true))

/-- `Sim2h::agents_in_neighbourhood` under `get_or_create_space`. -/
def Sim2h.agentsInNeighbourhood (st : Sim2h) (s : SpaceHash) (entryLoc : Nat)
    (redundantCount : Nat) : Sim2h × List (AgentId × AgentInfo) :=
  let st1 := st.getOrCreateSpace s
  (st1, (st1.getSpaceD s).agentsSupposedToHoldEntry st.agentLocation entryLoc
    redundantCount)

/-- The aspect loop of `Sim2h::handle_new_entry_data`: per aspect, record
the (entry, aspect) pair in `all_aspects` and broadcast one
`HandleStoreEntryAspect` to every recipient. -/
def newEntryLoop (dhtAgents : List (AgentId × AgentInfo)) (s : SpaceHash)
    (provider : AgentId) (entryAddress : EntryHash) :
    Sim2h → List EntryAspectData → Sim2h × List OutCmd
  | st, [] => (st, [])
  | st, aspect :: rest =>
    let st1 := st.modifySpace s (fun sp => sp.addAspect entryAddress aspect.aspectAddress)
    let outs1 := dhtAgents.map (fun p =>
      OutCmd.sendMsg p.1 p.2.uri (.lib3hToClient (.handleStoreEntryAspect
        { requestId := none, spaceAddress := s, providerAgentId := provider,
          entryAddress := entryAddress, entryAspect := aspect })))
    let r := newEntryLoop dhtAgents s provider entryAddress st1 rest
    (r.1, outs1 ++ r.2)

/-- `Sim2h::handle_new_entry_data`: compute the replica set once, then for
each aspect record it and broadcast a store request. -/
def Sim2h.handleNewEntryData (st : Sim2h) (entryData : EntryData) (s : SpaceHash)
    (provider : AgentId) : Sim2h × List OutCmd :=
  let r := match st.dhtAlgorithm with
    | .fullSync => st.allAgentsExceptOne s (some provider)
    | .naiveSharding rc =>
      st.agentsInNeighbourhood s (st.entryLocation entryData.entryAddress) rc
  newEntryLoop r.2 s provider entryData.entryAddress r.1 entryData.aspectList

/-- `Sim2h::get_agent_not_missing_aspects`: first pool agent that is not
the requester and not known to be missing all the same aspects. -/
def Sim2h.getAgentNotMissingAspects (st : Sim2h) (entry : EntryHash)
    (aspects : List AspectHash) (forAgent : AgentId) (pool : List AgentId)
    (s : SpaceHash) : Option AgentId :=
  match aget st.spaces s with
  | none => none
  | some sp =>
    pool.find? (fun a =>
      decide (¬ a = forAgent) && !(sp.agentIsMissingAllAspects a entry aspects))

/-- The entry loop of `Sim2h::fetch_aspects_from_arbitrary_agent`; a
selected agent without a known URI aborts the whole loop (early `return`). -/
def fetchLoop (forAgent : AgentId) (pool : List AgentId) (s : SpaceHash) :
    Sim2h → AspectList → Sim2h × List OutCmd
  | st, [] => (st, [])
  | st, (entryAddress, aspects) :: rest =>
    match st.getAgentNotMissingAspects entryAddress aspects forAgent pool s with
    | some arbitraryAgent =>
      (match st.lookupJoined s arbitraryAgent with
       | none => (st, [])
       | some url =>
         let cmd := OutCmd.sendMsg arbitraryAgent url
           (.lib3hToClient (.handleFetchEntry
             { requestId := some forAgent, spaceAddress := s,
               providerAgentId := arbitraryAgent, entryAddress := entryAddress,
               aspectAddressList := some aspects }))
         let r := fetchLoop forAgent pool s st rest
         (r.1, cmd :: r.2))
    | none => fetchLoop forAgent pool s st rest

/-- `Sim2h::fetch_aspects_from_arbitrary_agent`: shuffle the candidate pool
and fetch each entry's missing aspects from a qualified agent. -/
def Sim2h.fetchAspectsFromArbitraryAgent (st : Sim2h) (aspectsToFetch : AspectList)
    (forAgent : AgentId) (pool : List AgentId) (s : SpaceHash) :
    Sim2h × List OutCmd :=
  fetchLoop forAgent (st.shuffleFn pool) s st aspectsToFetch

/-- The aspect loop of the non-empty-request-id branch of
`HandleFetchEntryResult`: drop each delivered aspect from the destination
agent's missing ledger and send it a store request. -/
def storeLoop (s : SpaceHash) (provider : AgentId) (toAgentId : AgentId)
    (url : Uri) (entryAddress : EntryHash) :
    Sim2h → List EntryAspectData → Sim2h × List OutCmd
  | st, [] => (st, [])
  | st, aspect :: rest =>
    let st1 := st.modifySpace s (fun sp =>
      sp.removeMissingAspect toAgentId entryAddress aspect.aspectAddress)
    let cmd := OutCmd.sendMsg toAgentId url (.lib3hToClient (.handleStoreEntryAspect
      { requestId := none, spaceAddress := s, providerAgentId := provider,
        entryAddress := entryAddress, entryAspect := aspect }))
    let r := storeLoop s provider toAgentId url entryAddress st1 rest
    (r.1, cmd :: r.2)

/-- Record every pair of a missing-aspects diff in the space's ledger
(the `add_missing_aspect` loop of the gossip-list handler). -/
def addMissingLoop (s : SpaceHash) (agent : AgentId) :
    Sim2h → List (EntryHash × AspectHash) → Sim2h
  | st, [] => st
  | st, (e, a) :: rest =>
    addMissingLoop s agent
      (st.modifySpace s (fun sp => sp.addMissingAspect agent e a)) rest

/-- The flattened (entry, aspect) pairs of an `AspectList`
(Rust `HashSet<(EntryHash, AspectHash)>::from(&AspectList)`). -/
def AspectList.pairs (l : AspectList) : List (EntryHash × AspectHash) :=
  l.flatMap (fun p => p.2.map (fun a => (p.1, a)))

/-- The per-entry fetch loop of the naive-sharding gossip branch. -/
def naiveGossipLoop (missing : AspectList) (agent : AgentId) (s : SpaceHash)
    (redundantCount : Nat) :
    Sim2h → List EntryHash → Sim2h × List OutCmd
  | st, [] => (st, [])
  | st, entryAddress :: rest =>
    let entryLoc := st.entryLocation entryAddress
    let st1 := st.getOrCreateSpace s
    let pool := ((st1.getSpaceD s).agentsSupposedToHoldEntry st1.agentLocation
      entryLoc redundantCount).map Prod.fst
    let r1 := st1.fetchAspectsFromArbitraryAgent
      (missing.filter (fun p => decide (p.1 = entryAddress))) agent pool s
    let r2 := naiveGossipLoop missing agent s redundantCount r1.1 rest
    (r2.1, r1.2 ++ r2.2)

/-- The body of the `HandleGetGossipingEntryListResult` branch after the
space/agent check: unseen-aspect fetches, missing-ledger update, and fetch
orchestration under the configured replication policy. -/
def Sim2h.handleGossipList (st : Sim2h) (uri : Uri) (s : SpaceHash)
    (agent : AgentId) (listData : EntryListData) : Sim2h × List OutCmd :=
  let r0 := st.handleUnseenAspects uri s agent listData
  let st1 := r0.1
  let dhtAlgorithm := st1.dhtAlgorithm
  let st2 := st1.getOrCreateSpace s
  let missing := match dhtAlgorithm with
    | .fullSync => AspectList.diff (st2.getSpaceD s).allAspects listData.addressMap
    | .naiveSharding rc =>
      AspectList.diff
        ((st2.getSpaceD s).aspectsInShardForAgent st2.agentLocation
          st2.entryLocation agent rc)
        listData.addressMap
  if missing.length = 0 then (st2, r0.2)
  else
    let missingHashes := missing.pairs
    let st3 := if missingHashes.length > 0 then addMissingLoop s agent st2 missingHashes
               else st2
    match dhtAlgorithm with
    | .fullSync =>
      let st4 := st3.getOrCreateSpace s
      let allAgentsInSpace := (st4.getSpaceD s).agents.map Prod.fst
      if allAgentsInSpace.length = 1 then (st4, r0.2)
      else
        let r1 := st4.fetchAspectsFromArbitraryAgent missing agent allAgentsInSpace s
        (r1.1, r0.2 ++ r1.2)
    | .naiveSharding rc =>
      let r1 := naiveGossipLoop missing agent s rc st3 (missing.map Prod.fst)
      (r1.1, r0.2 ++ r1.2)

/-- The naive-sharding `QueryEntry` branch: pick a query target from the
shard's agent pool, preferring agents with no missing aspects for the
entry, and forward the query (no space/agent check is performed here). -/
def Sim2h.handleQueryEntryNaive (st : Sim2h) (s : SpaceHash)
    (queryData : QueryEntryData) (redundantCount : Nat) : HRes :=
  let entryLoc := st.entryLocation queryData.entryAddress
  let st1 := st.getOrCreateSpace s
  let agentPool := ((st1.getSpaceD s).agentsSupposedToHoldEntry st1.agentLocation
    entryLoc redundantCount).map Prod.fst
  let st2 := st1.getOrCreateSpace s
  let queryTarget :=
    if agentPool.isEmpty then queryData.requesterAgentId
    else
      let agentsWithAllAspects := agentPool.filter (fun a =>
        !((st2.getSpaceD s).agentIsMissingSomeAspectForEntry a queryData.entryAddress))
      let agentsToSampleFrom := if agentsWithAllAspects.isEmpty then agentPool
                                else agentsWithAllAspects
      (st2.shuffleFn agentsToSampleFrom).headD 0
  match st2.lookupJoined s queryTarget with
  | none => ⟨.ok, st2, []⟩
  | some url =>
    ⟨.ok, st2, [.sendMsg queryTarget url
      (.lib3hToClient (.handleQueryEntry queryData))]⟩

/-- `Sim2h::handle_joined`: dispatch a message accepted on a `Joined(s, a)`
connection.  Mirrors the `match message` of `crates/sim2h/src/lib.rs`; in
particular `Lib3hToClient` and `ClientToLib3hResponse` variants coming
from a client hit the `panic!` arm. -/
def Sim2h.handleJoined (st : Sim2h) (uri : Uri) (s : SpaceHash) (a : AgentId)
    (msg : WireMessage) : HRes :=
  match msg with
  | .lib3hToClient _ => ⟨.panicked, st, []⟩
  | .clientToLib3hResponse _ => ⟨.panicked, st, []⟩
  | .clientToLib3h (.joinSpace _) => ⟨.err .joinNotProxied, st, []⟩
  | .clientToLib3h (.leaveSpace d) => st.leave uri d
  | .clientToLib3h (.sendDirectMessage dm) =>
    if ¬ dm.fromAgentId = a ∨ ¬ dm.spaceAddress = s then ⟨.err .spaceMismatch, st, []⟩
    else
      match st.lookupJoined s dm.toAgentId with
      | none => ⟨.err (.unvalidatedProxyAgent dm.toAgentId), st, []⟩
      | some toUrl =>
        ⟨.ok, st, [.sendMsg dm.toAgentId toUrl
          (.lib3hToClient (.handleSendDirectMessage dm))]⟩
  | .lib3hToClientResponse (.handleSendDirectMessageResult dm) =>
    if ¬ dm.fromAgentId = a ∨ ¬ dm.spaceAddress = s then ⟨.err .spaceMismatch, st, []⟩
    else
      match st.lookupJoined s dm.toAgentId with
      | none => ⟨.err (.unvalidatedProxyAgent dm.toAgentId), st, []⟩
      | some toUrl =>
        ⟨.ok, st, [.sendMsg dm.toAgentId toUrl
          (.lib3hToClient (.sendDirectMessageResult dm))]⟩
  | .clientToLib3h (.publishEntry d) =>
    if ¬ d.providerAgentId = a ∨ ¬ d.spaceAddress = s then ⟨.err .spaceMismatch, st, []⟩
    else
      let r := st.handleNewEntryData d.entry s a
      ⟨.ok, r.1, r.2⟩
  | .lib3hToClientResponse (.handleGetAuthoringEntryListResult listData) =>
    if ¬ listData.providerAgentId = a ∨ ¬ listData.spaceAddress = s then
      ⟨.err .spaceMismatch, st, []⟩
    else
      let r := st.handleUnseenAspects uri s a listData
      ⟨.ok, r.1, r.2⟩
  | .lib3hToClientResponse (.handleGetGossipingEntryListResult listData) =>
    if ¬ listData.providerAgentId = a ∨ ¬ listData.spaceAddress = s then
      ⟨.err .spaceMismatch, st, []⟩
    else
      let r := st.handleGossipList uri s a listData
      ⟨.ok, r.1, r.2⟩
  | .lib3hToClientResponse (.handleFetchEntryResult fetchResult) =>
    if ¬ fetchResult.providerAgentId = a ∨ ¬ fetchResult.spaceAddress = s then
      ⟨.err .spaceMismatch, st, []⟩
    else
      match fetchResult.requestId with
      | none =>
        let r := st.handleNewEntryData fetchResult.entry s a
        ⟨.ok, r.1, r.2⟩
      | some toAgentId =>
        match st.lookupJoined s toAgentId with
        | none => ⟨.ok, st, []⟩
        | some url =>
          let r := storeLoop s a toAgentId url fetchResult.entry.entryAddress st
            fetchResult.entry.aspectList
          ⟨.ok, r.1, r.2⟩
  | .clientToLib3h (.queryEntry queryData) =>
    (match st.dhtAlgorithm with
     | .naiveSharding rc => st.handleQueryEntryNaive s queryData rc
     | .fullSync => ⟨.err .queryEntryInFullSync, st, []⟩)
  | .lib3hToClientResponse (.handleQueryEntryResult queryResult) =>
    if ¬ queryResult.responderAgentId = a ∨ ¬ queryResult.spaceAddress = s then
      ⟨.err .spaceMismatch, st, []⟩
    else
      match st.lookupJoined s queryResult.requesterAgentId with
      | none => ⟨.err (.unvalidatedProxyAgent queryResult.requesterAgentId), st, []⟩
      | some toUrl =>
        ⟨.ok, st, [.sendMsg queryResult.requesterAgentId toUrl
          (.clientToLib3hResponse (.queryEntryResult queryResult))]⟩
  | _ => ⟨.err .notImplemented, st, []⟩

/-- The limbo-queue replay loop of `Sim2h::join`: re-handle every queued
message in its original enqueue order under the handler `hm`; errors are
logged and replay continues, a `panic!` aborts.  Returns the final state,
the concatenated outbound effects, and whether a step panicked. -/
def replayList (hm : Sim2h → WireMessage → HRes) :
    Sim2h → List WireMessage → Sim2h × List OutCmd × Bool
  | st, [] => (st, [], false)
  | st, m :: rest =>
    let r := hm st m
    match r.result with
    | .panicked => (r.state, r.out, true)
    | _ =>
      let next := replayList hm r.state rest
      (next.1, r.out ++ next.2.1, next.2.2)

/-- The connection-state update at the head of `Sim2h::join`. -/
def Sim2h.joinConnState (st : Sim2h) (uri : Uri) (d : SpaceData) : Sim2h :=
  { st with connections := aput st.connections uri (.joined d.spaceAddress d.agentId) }

/-- The registration prefix of `Sim2h::join`: mark the connection joined,
ensure the space exists and register the agent.  On a `join_agent` failure
the connection mutation and the space creation persist (the Rust `?`
returns after both). -/
def Sim2h.joinRegister (st : Sim2h) (uri : Uri) (d : SpaceData) :
    Option Sim2hError × Sim2h :=
  let st2 := (st.joinConnState uri d).getOrCreateSpace d.spaceAddress
  match (st2.getSpaceD d.spaceAddress).joinAgent d.agentId uri with
  | none => (some .uriClaimedByOtherAgent, st2)
  | some sp' => (none, st2.setSpace d.spaceAddress sp')

/-- `Sim2h::join` with the recursive `handle_message` call abstracted as
`hm`: register the limbo connection, request authoring and gossiping lists,
then replay the pending queue in order with the joining agent as signer. -/
def joinWith (hm : Sim2h → Uri → WireMessage → AgentId → HRes) (st : Sim2h)
    (uri : Uri) (d : SpaceData) : HRes :=
  match aget st.connections uri with
  | some (.limbo pending) =>
    (match st.joinRegister uri d with
     | (some e, st2) => ⟨.err e, st2, []⟩
     | (none, st3) =>
       let r := replayList (fun s' m => hm s' uri m d.agentId) st3 pending
       ⟨if r.2.2 then .panicked else .ok, r.1, joinRequests uri d ++ r.2.1⟩)
  | _ => ⟨.err (.noAgentInLimbo uri), st, []⟩

/-- The body of `Sim2h::handle_message`, with the recursive call used by
the join replay abstracted as `hm`: answer `Ping`/`Status` in any state,
then dispatch on the connection state (limbo queues everything but a
signed `JoinSpace`; joined connections go through the signer check and
`handle_joined`). -/
def handleMessageGo (hm : Sim2h → Uri → WireMessage → AgentId → HRes)
    (st : Sim2h) (uri : Uri) (msg : WireMessage) (signer : AgentId) : HRes :=
  if msg = .ping then ⟨.ok, st, [.sendMsg signer uri .pong]⟩
  else if msg = .status then
    ⟨.ok, st, [.sendMsg signer uri (.statusResponse st.statusOf)]⟩
  else
    match aget st.connections uri with
    | none => ⟨.err (.noConnection uri), st, []⟩
    | some (.limbo pending) =>
      (match msg with
       | .clientToLib3h (.joinSpace d) =>
         if ¬ d.agentId = signer then ⟨.err .signerMismatch, st, []⟩
         else joinWith hm st uri d
       | _ =>
         let conns := aput st.connections uri (.limbo (pending ++ [msg]))
         ⟨.ok, { st with connections := conns },
           [.sendMsg signer uri (.err .messageWhileInLimbo)]⟩)
    | some (.joined s a) =>
      if ¬ a = signer then ⟨.err .signerMismatch, st, []⟩
      else st.handleJoined uri s a msg

/-- `Sim2h::handle_message` with a recursion budget for the join replay.
A nested join during replay is impossible (the connection is `Joined`
while its queue is replayed), so any budget of at least two gives the
Rust semantics; the budget-exhausted outcome `recursionFuel` is
unreachable from the entry point below. -/
def handleMessageF : Nat → Sim2h → Uri → WireMessage → AgentId → HRes
  | 0 => fun st _ _ _ => ⟨.err .recursionFuel, st, []⟩
  | fuel + 1 => handleMessageGo (handleMessageF fuel)

/-- `Sim2h::handle_message`. -/
def Sim2h.handleMessage (st : Sim2h) (uri : Uri) (msg : WireMessage)
    (signer : AgentId) : HRes :=
  handleMessageF 2 st uri msg signer

/-- The websocket frames delivered by the I/O adapter (Rust `WsFrame`). -/
inductive WsFrame where
  | text (s : String)
  | binary (payload : Payload)
  | wsPing
  | wsPong
  | close
  deriving DecidableEq

/-- `Sim2h::priv_handle_received_data`, with `Sim2h::verify_payload`
abstracted as the `verify` argument (it is a pure static function of the
payload): text frames drop the connection, binary frames are verified and
dispatched (a verification failure is only logged; a handler error is only
logged but its partial mutations persist), ws-level ping/pong are ignored,
close frames disconnect. -/
def Sim2h.privHandleReceivedData (st : Sim2h) (uri : Uri) (frame : WsFrame)
    (verify : Payload → Option (AgentId × WireMessage)) : Sim2h × List OutCmd :=
  match frame with
  | .text _ => st.disconnect uri
  | .binary payload =>
    (match verify payload with
     | none => (st, [])
     | some (source, wireMessage) =>
       let r := st.handleMessage uri wireMessage source
       (r.state, r.out))
  | .wsPing => (st, [])
  | .wsPong => (st, [])
  | .close => st.disconnect uri

/-! ## Association-list lemmas -/

theorem aget_cons {K V : Type} [DecidableEq K] (p : K × V) (l : List (K × V))
    (k : K) : aget (p :: l) k = if p.1 = k then some p.2 else aget l k := by
  by_cases h : p.1 = k <;> simp [aget, List.find?, h]

theorem find?_adel_none {K V : Type} [DecidableEq K] (l : List (K × V)) (k : K) :
    (adel l k).find? (fun p => decide (p.1 = k)) = none := by
  induction l with
  | nil => rfl
  | cons p rest ih =>
    by_cases h : p.1 = k
    · simp only [adel, List.filter_cons, h, decide_not, decide_True, Bool.not_true,
        Bool.false_eq_true, if_false, reduceIte] at ih ⊢
      exact ih
    · simp only [adel, List.filter_cons, h, decide_not, decide_False, Bool.not_false,
        if_true, reduceIte, List.find?] at ih ⊢
      simp [h, ih]

theorem aget_adel_self {K V : Type} [DecidableEq K] (l : List (K × V)) (k : K) :
    aget (adel l k) k = none := by
  simp [aget, find?_adel_none]

theorem aget_adel_ne {K V : Type} [DecidableEq K] (l : List (K × V)) (k k' : K)
    (h : ¬ k' = k) : aget (adel l k) k' = aget l k' := by
  induction l with
  | nil => rfl
  | cons p rest ih =>
    by_cases hp : p.1 = k
    · have hpk : ¬ p.1 = k' := by rw [hp]; exact fun e => h e.symm
      rw [show adel (p :: rest) k = adel rest k by simp [adel, List.filter_cons, hp]]
      rw [aget_cons, if_neg hpk]
      exact ih
    · rw [show adel (p :: rest) k = p :: adel rest k by
        simp [adel, List.filter_cons, hp]]
      rw [aget_cons, aget_cons]
      by_cases hp' : p.1 = k'
      · rw [if_pos hp', if_pos hp']
      · rw [if_neg hp', if_neg hp']
        exact ih

theorem aget_aput_self {K V : Type} [DecidableEq K] (l : List (K × V)) (k : K)
    (v : V) : aget (aput l k v) k = some v := by
  simp [aput, aget, List.find?_append, find?_adel_none, List.find?]

theorem aget_aput_ne {K V : Type} [DecidableEq K] (l : List (K × V)) (k k' : K)
    (v : V) (h : ¬ k' = k) : aget (aput l k v) k' = aget l k' := by
  have h' : ¬ k = k' := fun e => h e.symm
  have : aget [(k, v)] k' = none := by simp [aget, List.find?, h']
  calc aget (aput l k v) k'
      = ((adel l k ++ [(k, v)]).find? (fun p => decide (p.1 = k'))).map Prod.snd := rfl
    _ = aget l k' := by
        rw [List.find?_append]
        rcases hf : ((adel l k).find? (fun p => decide (p.1 = k'))) with _ | q
        · have h1 : aget (adel l k) k' = none := by simp [aget, hf]
          rw [aget_adel_ne l k k' h] at h1
          simpa [hf, aget, List.find?, h'] using h1.symm
        · have h1 : aget (adel l k) k' = some q.2 := by simp [aget, hf]
          rw [aget_adel_ne l k k' h] at h1
          simp [hf, ← h1, aget]

/-! ## Dispatch lemmas for `handle_message` -/

theorem handleMessage_eq_go (st : Sim2h) (uri : Uri) (msg : WireMessage)
    (signer : AgentId) :
    st.handleMessage uri msg signer =
      handleMessageGo (handleMessageF 1) st uri msg signer := rfl

theorem go_limbo_queue (hm : Sim2h → Uri → WireMessage → AgentId → HRes)
    (st : Sim2h) (uri : Uri) (msg : WireMessage) (signer : AgentId)
    (q : List WireMessage)
    (hq : aget st.connections uri = some (.limbo q))
    (hjoin : ∀ d, ¬ msg = .clientToLib3h (.joinSpace d))
    (hping : ¬ msg = .ping) (hstatus : ¬ msg = .status) :
    handleMessageGo hm st uri msg signer =
      ⟨.ok, { st with connections := aput st.connections uri (.limbo (q ++ [msg])) },
        [.sendMsg signer uri (.err .messageWhileInLimbo)]⟩ := by
  cases msg with
  | ping => exact absurd rfl hping
  | status => exact absurd rfl hstatus
  | clientToLib3h c =>
    cases c with
    | joinSpace d => exact absurd rfl (hjoin d)
    | leaveSpace d => simp [handleMessageGo, hq]
    | sendDirectMessage d => simp [handleMessageGo, hq]
    | publishEntry d => simp [handleMessageGo, hq]
    | queryEntry d => simp [handleMessageGo, hq]
    | fetchEntry d => simp [handleMessageGo, hq]
  | pong => simp [handleMessageGo, hq]
  | statusResponse d => simp [handleMessageGo, hq]
  | clientToLib3hResponse m => simp [handleMessageGo, hq]
  | lib3hToClient m => simp [handleMessageGo, hq]
  | lib3hToClientResponse m => simp [handleMessageGo, hq]
  | err e => simp [handleMessageGo, hq]

theorem go_joined (hm : Sim2h → Uri → WireMessage → AgentId → HRes)
    (st : Sim2h) (uri : Uri) (msg : WireMessage) (s : SpaceHash) (a : AgentId)
    (hq : aget st.connections uri = some (.joined s a))
    (hping : ¬ msg = .ping) (hstatus : ¬ msg = .status) :
    handleMessageGo hm st uri msg a = st.handleJoined uri s a msg := by
  simp [handleMessageGo, hq, hping, hstatus]

theorem go_join_dispatch (hm : Sim2h → Uri → WireMessage → AgentId → HRes)
    (st : Sim2h) (uri : Uri) (d : SpaceData) (q : List WireMessage)
    (hq : aget st.connections uri = some (.limbo q)) :
    handleMessageGo hm st uri (.clientToLib3h (.joinSpace d)) d.agentId =
      joinWith hm st uri d := by
  simp [handleMessageGo, hq]

theorem go_none (hm : Sim2h → Uri → WireMessage → AgentId → HRes)
    (st : Sim2h) (uri : Uri) (msg : WireMessage) (signer : AgentId)
    (hq : aget st.connections uri = none)
    (hping : ¬ msg = .ping) (hstatus : ¬ msg = .status) :
    handleMessageGo hm st uri msg signer = ⟨.err (.noConnection uri), st, []⟩ := by
  simp [handleMessageGo, hq, hping, hstatus]

theorem go_joined_full (hm : Sim2h → Uri → WireMessage → AgentId → HRes)
    (st : Sim2h) (uri : Uri) (msg : WireMessage) (signer : AgentId)
    (s : SpaceHash) (a : AgentId)
    (hq : aget st.connections uri = some (.joined s a))
    (hping : ¬ msg = .ping) (hstatus : ¬ msg = .status) :
    handleMessageGo hm st uri msg signer =
      if ¬ a = signer then ⟨.err .signerMismatch, st, []⟩
      else st.handleJoined uri s a msg := by
  simp only [handleMessageGo, hq, hping, hstatus, if_neg, if_false, reduceIte]

theorem go_limbo_join (hm : Sim2h → Uri → WireMessage → AgentId → HRes)
    (st : Sim2h) (uri : Uri) (d : SpaceData) (signer : AgentId)
    (q : List WireMessage)
    (hq : aget st.connections uri = some (.limbo q)) :
    handleMessageGo hm st uri (.clientToLib3h (.joinSpace d)) signer =
      if ¬ d.agentId = signer then ⟨.err .signerMismatch, st, []⟩
      else joinWith hm st uri d := by
  simp only [handleMessageGo, hq]
  rfl

/-- A concrete switchboard state for witnesses: full-sync algorithm,
identity shuffle, constant location projections. -/
def sampleState (conns : List (Uri × ConnectionState))
    (sps : List (SpaceHash × Space)) (opens : List Uri) : Sim2h :=
  { connections := conns, spaces := sps, openConnections := opens,
    dhtAlgorithm := .fullSync, shuffleFn := fun l => l,
    entryLocation := fun _ => 0, agentLocation := fun _ => 0 }

/-! ## Claim theorems -/

/-- C2: a connection in `Limbo(q)` receiving any `WireMessage` other than
`JoinSpace` (`Ping` and `Status` being handled unconditionally in any
state) has the message appended to its queue, an
`Err(MessageWhileInLimbo)` sent back to its own URI, and the spaces map is
not mutated. -/
theorem C2_limbo_queues_and_rejects (st : Sim2h) (uri : Uri)
    (msg : WireMessage) (signer : AgentId) (q : List WireMessage)
    (hq : aget st.connections uri = some (.limbo q))
    (hjoin : ∀ d, ¬ msg = .clientToLib3h (.joinSpace d))
    (hping : ¬ msg = .ping) (hstatus : ¬ msg = .status) :
    (st.handleMessage uri msg signer).result = .ok ∧
    (st.handleMessage uri msg signer).state.spaces = st.spaces ∧
    aget (st.handleMessage uri msg signer).state.connections uri =
      some (.limbo (q ++ [msg])) ∧
    (st.handleMessage uri msg signer).out =
      [.sendMsg signer uri (.err .messageWhileInLimbo)] := by
  rw [handleMessage_eq_go, go_limbo_queue _ _ _ _ _ _ hq hjoin hping hstatus]
  exact ⟨rfl, rfl, aget_aput_self _ _ _, rfl⟩

/-- Witness for C2: a `Pong` received on a limbo connection. -/
theorem C2_limbo_queues_and_rejects_witness :
    aget (sampleState [(1, .limbo [])] [] [1]).connections 1 = some (.limbo []) ∧
    ((sampleState [(1, .limbo [])] [] [1]).handleMessage 1 .pong 9).result = .ok ∧
    ((sampleState [(1, .limbo [])] [] [1]).handleMessage 1 .pong 9).state.spaces =
      (sampleState [(1, .limbo [])] [] [1]).spaces ∧
    aget ((sampleState [(1, .limbo [])] [] [1]).handleMessage 1 .pong 9).state.connections 1 =
      some (.limbo [.pong]) ∧
    ((sampleState [(1, .limbo [])] [] [1]).handleMessage 1 .pong 9).out =
      [.sendMsg 9 1 (.err .messageWhileInLimbo)] := by
  refine ⟨rfl, ?_⟩
  have h := C2_limbo_queues_and_rejects (sampleState [(1, .limbo [])] [] [1]) 1
    .pong 9 [] rfl (fun d => by simp) (by simp) (by simp)
  simpa using h

/-- C5: a binary frame whose `SignedWireMessage` fails verification is
discarded with nothing but an error log: the state (connections, spaces,
open set) is untouched and no outbound command is issued. -/
theorem C5_verify_failure_discards (st : Sim2h) (uri : Uri) (payload : Payload)
    (verify : Payload → Option (AgentId × WireMessage))
    (hv : verify payload = none) :
    st.privHandleReceivedData uri (.binary payload) verify = (st, []) := by
  simp [Sim2h.privHandleReceivedData, hv]

/-- Witness for C5: a failing verifier on a concrete state. -/
theorem C5_verify_failure_discards_witness :
    (fun _ : Payload => (none : Option (AgentId × WireMessage))) 0 = none ∧
    (sampleState [(1, .limbo [])] [] [1]).privHandleReceivedData 1 (.binary 0)
      (fun _ => none) = (sampleState [(1, .limbo [])] [] [1], []) :=
  ⟨rfl, C5_verify_failure_discards (sampleState [(1, .limbo [])] [] [1]) 1 0
    (fun _ => none) rfl⟩

/-- C9: `handle_incoming_connect` on a URI that already has a connection
state replaces it by a fresh `Limbo(∅)` and leaves every space unchanged;
in particular a `Joined(s, a)` connection's registration of `a` in space
`s` survives, and a subsequent join of a different agent at the same URI
leaves a `Joined` connection whose agent is not registered, breaking the
invariant that a `Joined(s, a)` binding implies
`spaces[s].agents[a].uri = uri`. -/
theorem C9_incoming_connect_frame_effect :
    (∀ (st : Sim2h) (uri : Uri),
      (st.handleIncomingConnect uri).spaces = st.spaces ∧
      aget (st.handleIncomingConnect uri).connections uri = some (.limbo []) ∧
      ∀ u', ¬ u' = uri →
        aget (st.handleIncomingConnect uri).connections u' =
          aget st.connections u') ∧
    (let demo := sampleState [(1, .joined 7 5)]
        [(7, { agents := [(5, ⟨1⟩)], allAspects := [], missingByAgent := [] })] [1]
     let afterConnect := demo.handleIncomingConnect 1
     let afterJoin := afterConnect.handleMessage 1
        (.clientToLib3h (.joinSpace ⟨none, 7, 9⟩)) 9
     aget demo.connections 1 = some (.joined 7 5) ∧
     (demo.getSpaceD 7).agentIdToUri 5 = some 1 ∧
     aget afterConnect.connections 1 = some (.limbo []) ∧
     (afterConnect.getSpaceD 7).agentIdToUri 5 = some 1 ∧
     aget afterJoin.state.connections 1 = some (.joined 7 9) ∧
     (afterJoin.state.getSpaceD 7).agentIdToUri 9 = none) := by
  constructor
  · intro st uri
    refine ⟨rfl, aget_aput_self _ _ _, fun u' hu => ?_⟩
    exact aget_aput_ne _ _ _ _ hu
  · exact ⟨by decide, by decide, by decide, by decide, by decide, by decide⟩

/-- Witness for C9: the frame effect applied at a concrete state and URI. -/
theorem C9_incoming_connect_frame_effect_witness :
    ¬ (2 : Uri) = 1 ∧
    aget ((sampleState [(1, .joined 7 5)] [] [1]).handleIncomingConnect 1).connections 2 =
      aget (sampleState [(1, .joined 7 5)] [] [1]).connections 2 :=
  ⟨by decide,
    (C9_incoming_connect_frame_effect.1 (sampleState [(1, .joined 7 5)] [] [1]) 1).2.2
      2 (by decide)⟩

/-- The space/agent consistency check `handle_joined` performs on payloads
that carry identity fields, exactly as in the source: `from_agent_id` for
the two direct-message payloads, `provider_agent_id` for publish, the two
entry-list results and the fetch result, and `responder_agent_id` for the
query result — each together with `space_address`.  The `QueryEntry`
branch of the source performs no such check, so it is absent here. -/
def payloadMismatch (msg : WireMessage) (s : SpaceHash) (a : AgentId) : Bool :=
  match msg with
  | .clientToLib3h (.sendDirectMessage dm) =>
    decide (¬ dm.fromAgentId = a ∨ ¬ dm.spaceAddress = s)
  | .lib3hToClientResponse (.handleSendDirectMessageResult dm) =>
    decide (¬ dm.fromAgentId = a ∨ ¬ dm.spaceAddress = s)
  | .clientToLib3h (.publishEntry d) =>
    decide (¬ d.providerAgentId = a ∨ ¬ d.spaceAddress = s)
  | .lib3hToClientResponse (.handleGetAuthoringEntryListResult ld) =>
    decide (¬ ld.providerAgentId = a ∨ ¬ ld.spaceAddress = s)
  | .lib3hToClientResponse (.handleGetGossipingEntryListResult ld) =>
    decide (¬ ld.providerAgentId = a ∨ ¬ ld.spaceAddress = s)
  | .lib3hToClientResponse (.handleFetchEntryResult fr) =>
    decide (¬ fr.providerAgentId = a ∨ ¬ fr.spaceAddress = s)
  | .lib3hToClientResponse (.handleQueryEntryResult qr) =>
    decide (¬ qr.responderAgentId = a ∨ ¬ qr.spaceAddress = s)
  | _ => false

/-- A joined connection under the naive-sharding algorithm, for the C3
counterexample. -/
def C3shardedState : Sim2h :=
  { connections := [(1, .joined 7 5)],
    spaces := [(7, { agents := [(5, ⟨1⟩)], allAspects := [], missingByAgent := [] })],
    openConnections := [1], dhtAlgorithm := .naiveSharding 2,
    shuffleFn := fun l => l, entryLocation := fun _ => 0,
    agentLocation := fun _ => 0 }

/-- C3 counterexample: on a connection joined as `(7, 5)`, a `QueryEntry`
whose payload names space `8` and requester `6` — both mismatching the
binding — is not answered with a `SpaceMismatch` error: under
naive sharding the handler returns `Ok` and even forwards the query. -/
theorem C3_queryEntry_not_checked :
    ¬ (8 : SpaceHash) = 7 ∧ ¬ (6 : AgentId) = 5 ∧
    (C3shardedState.handleMessage 1
      (.clientToLib3h (.queryEntry ⟨8, 100, none, 6, 0⟩)) 5).result = .ok ∧
    (C3shardedState.handleMessage 1
      (.clientToLib3h (.queryEntry ⟨8, 100, none, 6, 0⟩)) 5).out =
      [.sendMsg 5 1 (.lib3hToClient (.handleQueryEntry ⟨8, 100, none, 6, 0⟩))] := by
  exact ⟨by decide, by decide, by decide, by decide⟩

/-- C3 (amended): on a connection joined as `(s, a)`, every message that
carries identity fields — `SendDirectMessage`,
`HandleSendDirectMessageResult`, `PublishEntry`, the two entry-list
results, `HandleFetchEntryResult` and `HandleQueryEntryResult`, but not
`QueryEntry`, which is forwarded unchecked — is answered with a
`SpaceMismatch` error when those fields disagree with `(a, s)`, and the
state and outbound queue are untouched. -/
theorem C3_mismatch_rejected (st : Sim2h) (uri : Uri) (s : SpaceHash)
    (a : AgentId) (msg : WireMessage)
    (hq : aget st.connections uri = some (.joined s a))
    (hm : payloadMismatch msg s a = true) :
    st.handleMessage uri msg a = ⟨.err .spaceMismatch, st, []⟩ := by
  cases msg with
  | clientToLib3h c =>
    cases c with
    | sendDirectMessage dm =>
      rw [handleMessage_eq_go, go_joined _ _ _ _ _ _ hq (by simp) (by simp)]
      simp only [Sim2h.handleJoined]
      rw [if_pos (of_decide_eq_true hm)]
    | publishEntry d =>
      rw [handleMessage_eq_go, go_joined _ _ _ _ _ _ hq (by simp) (by simp)]
      simp only [Sim2h.handleJoined]
      rw [if_pos (of_decide_eq_true hm)]
    | joinSpace d => simp [payloadMismatch] at hm
    | leaveSpace d => simp [payloadMismatch] at hm
    | queryEntry d => simp [payloadMismatch] at hm
    | fetchEntry d => simp [payloadMismatch] at hm
  | lib3hToClientResponse m =>
    cases m with
    | handleSendDirectMessageResult dm =>
      rw [handleMessage_eq_go, go_joined _ _ _ _ _ _ hq (by simp) (by simp)]
      simp only [Sim2h.handleJoined]
      rw [if_pos (of_decide_eq_true hm)]
    | handleGetAuthoringEntryListResult ld =>
      rw [handleMessage_eq_go, go_joined _ _ _ _ _ _ hq (by simp) (by simp)]
      simp only [Sim2h.handleJoined]
      rw [if_pos (of_decide_eq_true hm)]
    | handleGetGossipingEntryListResult ld =>
      rw [handleMessage_eq_go, go_joined _ _ _ _ _ _ hq (by simp) (by simp)]
      simp only [Sim2h.handleJoined]
      rw [if_pos (of_decide_eq_true hm)]
    | handleFetchEntryResult fr =>
      rw [handleMessage_eq_go, go_joined _ _ _ _ _ _ hq (by simp) (by simp)]
      simp only [Sim2h.handleJoined]
      rw [if_pos (of_decide_eq_true hm)]
    | handleQueryEntryResult qr =>
      rw [handleMessage_eq_go, go_joined _ _ _ _ _ _ hq (by simp) (by simp)]
      simp only [Sim2h.handleJoined]
      rw [if_pos (of_decide_eq_true hm)]
    | handleStoreEntryAspectResult => simp [payloadMismatch] at hm
  | ping => simp [payloadMismatch] at hm
  | pong => simp [payloadMismatch] at hm
  | status => simp [payloadMismatch] at hm
  | statusResponse d => simp [payloadMismatch] at hm
  | clientToLib3hResponse m => simp [payloadMismatch] at hm
  | lib3hToClient m => simp [payloadMismatch] at hm
  | err e => simp [payloadMismatch] at hm

/-- Witness for C3 (amended): a direct message claiming to be from agent
`6` on a connection joined as `(7, 5)` is rejected with `SpaceMismatch`. -/
theorem C3_mismatch_rejected_witness :
    aget (sampleState [(1, .joined 7 5)] [] [1]).connections 1 =
      some (.joined 7 5) ∧
    payloadMismatch (.clientToLib3h (.sendDirectMessage ⟨7, none, 3, 6, 0⟩)) 7 5 =
      true ∧
    (sampleState [(1, .joined 7 5)] [] [1]).handleMessage 1
      (.clientToLib3h (.sendDirectMessage ⟨7, none, 3, 6, 0⟩)) 5 =
      ⟨.err .spaceMismatch, sampleState [(1, .joined 7 5)] [] [1], []⟩ :=
  ⟨by decide, by decide,
    C3_mismatch_rejected (sampleState [(1, .joined 7 5)] [] [1]) 1 7 5
      (.clientToLib3h (.sendDirectMessage ⟨7, none, 3, 6, 0⟩)) rfl (by decide)⟩

/-- The two message families only the server may send; `handle_joined`
hits its `panic!` arm exactly on these. -/
def isServerOnly (msg : WireMessage) : Bool :=
  match msg with
  | .lib3hToClient _ => true
  | .clientToLib3hResponse _ => true
  | _ => false

theorem handleJoined_no_panic (st : Sim2h) (uri : Uri) (s : SpaceHash)
    (a : AgentId) (msg : WireMessage) (h : isServerOnly msg = false) :
    ¬ (st.handleJoined uri s a msg).result = .panicked := by
  cases msg with
  | lib3hToClient m => simp [isServerOnly] at h
  | clientToLib3hResponse m => simp [isServerOnly] at h
  | clientToLib3h c =>
    cases c with
    | joinSpace d => simp [Sim2h.handleJoined]
    | leaveSpace d =>
      simp only [Sim2h.handleJoined, Sim2h.leave]
      rcases h' : aget st.connections uri with _ | cs
      · simp [h']
      · cases cs with
        | limbo p => simp [h']
        | joined s' a' =>
          by_cases hcond : ¬ d.agentId = a' ∨ ¬ d.spaceAddress = s' <;>
            simp [h', hcond]
    | sendDirectMessage dm =>
      simp only [Sim2h.handleJoined]
      by_cases hcond : ¬ dm.fromAgentId = a ∨ ¬ dm.spaceAddress = s
      · simp [hcond]
      · rcases hl : st.lookupJoined s dm.toAgentId with _ | u <;> simp [hcond, hl]
    | publishEntry d =>
      simp only [Sim2h.handleJoined]
      by_cases hcond : ¬ d.providerAgentId = a ∨ ¬ d.spaceAddress = s <;>
        simp [hcond]
    | queryEntry qd =>
      simp only [Sim2h.handleJoined]
      rcases hd : st.dhtAlgorithm with _ | rc
      · simp [hd]
      · simp only [hd, Sim2h.handleQueryEntryNaive]
        split <;> simp
    | fetchEntry d => simp [Sim2h.handleJoined]
  | lib3hToClientResponse m =>
    cases m with
    | handleSendDirectMessageResult dm =>
      simp only [Sim2h.handleJoined]
      by_cases hcond : ¬ dm.fromAgentId = a ∨ ¬ dm.spaceAddress = s
      · simp [hcond]
      · rcases hl : st.lookupJoined s dm.toAgentId with _ | u <;> simp [hcond, hl]
    | handleGetAuthoringEntryListResult ld =>
      simp only [Sim2h.handleJoined]
      by_cases hcond : ¬ ld.providerAgentId = a ∨ ¬ ld.spaceAddress = s <;>
        simp [hcond]
    | handleGetGossipingEntryListResult ld =>
      simp only [Sim2h.handleJoined]
      by_cases hcond : ¬ ld.providerAgentId = a ∨ ¬ ld.spaceAddress = s <;>
        simp [hcond]
    | handleFetchEntryResult fr =>
      simp only [Sim2h.handleJoined]
      by_cases hcond : ¬ fr.providerAgentId = a ∨ ¬ fr.spaceAddress = s
      · simp [hcond]
      · rcases hrid : fr.requestId with _ | dest
        · simp [hcond, hrid]
        · rcases hl : st.lookupJoined s dest with _ | u <;> simp [hcond, hrid, hl]
    | handleQueryEntryResult qr =>
      simp only [Sim2h.handleJoined]
      by_cases hcond : ¬ qr.responderAgentId = a ∨ ¬ qr.spaceAddress = s
      · simp [hcond]
      · rcases hl : st.lookupJoined s qr.requesterAgentId with _ | u <;>
          simp [hcond, hl]
    | handleStoreEntryAspectResult => simp [Sim2h.handleJoined]
  | ping => simp [Sim2h.handleJoined]
  | pong => simp [Sim2h.handleJoined]
  | status => simp [Sim2h.handleJoined]
  | statusResponse d => simp [Sim2h.handleJoined]
  | err e => simp [Sim2h.handleJoined]

theorem replayList_no_panic (hm : Sim2h → WireMessage → HRes)
    (l : List WireMessage) (st : Sim2h)
    (h : ∀ m ∈ l, ∀ s', ¬ (hm s' m).result = .panicked) :
    (replayList hm st l).2.2 = false := by
  induction l generalizing st with
  | nil => rfl
  | cons m rest ih =>
    have h1 := h m (by simp) st
    rcases hr : (hm st m).result with _ | e
    · simp only [replayList, hr]
      exact ih _ (fun m' hm' s' => h m' (by simp [hm']) s')
    · simp only [replayList, hr]
      exact ih _ (fun m' hm' s' => h m' (by simp [hm']) s')
    · exact absurd hr h1

theorem joinWith_no_panic (hm : Sim2h → Uri → WireMessage → AgentId → HRes)
    (st : Sim2h) (uri : Uri) (d : SpaceData) (q : List WireMessage)
    (hc : aget st.connections uri = some (.limbo q))
    (hreplay : ∀ m ∈ q, ∀ s' a', ¬ (hm s' uri m a').result = .panicked) :
    ¬ (joinWith hm st uri d).result = .panicked := by
  simp only [joinWith, hc]
  rcases hr : st.joinRegister uri d with ⟨oe, st2⟩
  cases oe with
  | some e => simp [hr]
  | none =>
    have hflag := replayList_no_panic (fun s' m => hm s' uri m d.agentId) q st2
      (fun m hmem s' => hreplay m hmem s' d.agentId)
    simp [hr, hflag]

theorem go_no_panic (hm : Sim2h → Uri → WireMessage → AgentId → HRes)
    (st : Sim2h) (uri : Uri) (msg : WireMessage) (signer : AgentId)
    (hmsg : isServerOnly msg = false)
    (hreplay : ∀ q, aget st.connections uri = some (.limbo q) →
      ∀ m ∈ q, ∀ s' a', ¬ (hm s' uri m a').result = .panicked) :
    ¬ (handleMessageGo hm st uri msg signer).result = .panicked := by
  by_cases hping : msg = .ping
  · subst hping; simp [handleMessageGo]
  by_cases hstatus : msg = .status
  · subst hstatus; simp [handleMessageGo]
  rcases hc : aget st.connections uri with _ | cs
  · rw [go_none _ _ _ _ _ hc hping hstatus]; simp
  · cases cs with
    | joined s a =>
      rw [go_joined_full _ _ _ _ _ _ _ hc hping hstatus]
      by_cases hsig : ¬ a = signer
      · simp [hsig]
      · rw [if_neg hsig]
        exact handleJoined_no_panic st uri s a msg hmsg
    | limbo q =>
      by_cases hjoin : ∃ d, msg = .clientToLib3h (.joinSpace d)
      · obtain ⟨d, rfl⟩ := hjoin
        rw [go_limbo_join _ _ _ _ _ _ hc]
        by_cases hsig : ¬ d.agentId = signer
        · simp [hsig]
        · rw [if_neg hsig]
          exact joinWith_no_panic hm st uri d q hc (hreplay q hc)
      · have hjoin' : ∀ d, ¬ msg = .clientToLib3h (.joinSpace d) :=
          fun d he => hjoin ⟨d, he⟩
        rw [go_limbo_queue _ _ _ _ _ _ hc hjoin' hping hstatus]
        simp

theorem handleMessageF_one_no_panic (st : Sim2h) (uri : Uri) (m : WireMessage)
    (a : AgentId) (h : isServerOnly m = false) :
    ¬ (handleMessageF 1 st uri m a).result = .panicked := by
  exact go_no_panic (handleMessageF 0) st uri m a h
    (fun q hq m' hm' s' a' => by simp [handleMessageF])

/-- C6 counterexample: a well-formed `Lib3hToClient::HandleQueryEntry`
arriving from a client on a joined connection makes `handle_message` hit
the `panic!` arm of `handle_joined`, aborting the process instead of
returning an error for the event loop to report. -/
theorem C6_serverOnly_variant_panics :
    ((sampleState [(1, .joined 7 5)] [] [1]).handleMessage 1
      (.lib3hToClient (.handleQueryEntry ⟨7, 100, none, 5, 0⟩)) 5).result =
      .panicked := by
  decide

/-- C6 (amended): per-message handling never panics — so the event loop
reports the error and continues — for every message outside the
server-only families: if the inbound message is not a `Lib3hToClient` or
`ClientToLib3hResponse` variant, and (in case a join triggers a replay) no
queued limbo message is one either, `handle_message` returns `Ok` or
`Err` rather than aborting the process; the server-only variants alone
hit the `panic!` arm of `handle_joined`. -/
theorem C6_no_panic_outside_server_families (st : Sim2h) (uri : Uri)
    (msg : WireMessage) (signer : AgentId)
    (hmsg : isServerOnly msg = false)
    (hqueue : ∀ q, aget st.connections uri = some (.limbo q) →
      ∀ m ∈ q, isServerOnly m = false) :
    ¬ (st.handleMessage uri msg signer).result = .panicked := by
  rw [handleMessage_eq_go]
  exact go_no_panic (handleMessageF 1) st uri msg signer hmsg
    (fun q hq m' hm' s' a' =>
      handleMessageF_one_no_panic s' uri m' a' (hqueue q hq m' hm'))

/-- Witness for C6 (amended): a `SendDirectMessage` on a joined connection
with one queued-free limbo set. -/
theorem C6_no_panic_outside_server_families_witness :
    isServerOnly (.clientToLib3h (.sendDirectMessage ⟨7, none, 3, 5, 0⟩)) = false ∧
    ¬ ((sampleState [(1, .joined 7 5)] [] [1]).handleMessage 1
        (.clientToLib3h (.sendDirectMessage ⟨7, none, 3, 5, 0⟩)) 5).result =
      .panicked :=
  ⟨by decide,
    C6_no_panic_outside_server_families (sampleState [(1, .joined 7 5)] [] [1]) 1
      (.clientToLib3h (.sendDirectMessage ⟨7, none, 3, 5, 0⟩)) 5 (by decide)
      (fun q hq => by simp [sampleState, aget, List.find?] at hq)⟩

/-- Two spaces both holding a binding to URI `1`, the connection joined in
only one of them, for the C4 counterexample. -/
def C4twoSpaces : Sim2h :=
  sampleState [(1, .joined 70 5)]
    [(70, { agents := [(5, ⟨1⟩)], allAspects := [], missingByAgent := [] }),
     (71, { agents := [(4, ⟨1⟩)], allAspects := [], missingByAgent := [] })] [1]

/-- C4 counterexample: after `disconnect(1)` on a connection joined as
`(70, 5)`, space `70` is gone (agent `5` was its last agent) — but space
`71`'s directory still maps agent `4` to URI `1`, so a space still
references the URI. -/
theorem C4_stale_binding_survives :
    aget (C4twoSpaces.disconnect 1).1.connections 1 = none ∧
    aget (C4twoSpaces.disconnect 1).1.spaces 70 = none ∧
    aget (C4twoSpaces.disconnect 1).1.spaces 71 =
      some ⟨[(4, ⟨1⟩)], [], []⟩ ∧
    Space.agentIdToUri ⟨[(4, ⟨1⟩)], [], []⟩ 4 = some 1 := by
  exact ⟨by decide, by decide, by decide, by decide⟩

/-- C4 (amended): after `disconnect(uri)` the URI has no connection state;
if the connection was `Joined(s, a)` then agent `a` is removed from space
`s` — so `s` no longer maps `a` to the URI — and if `a` was the last
agent in `s` the space is removed entirely.  Bindings of the same URI
recorded under other agents or other spaces are not touched. -/
theorem C4_disconnect_postcondition (st : Sim2h) (uri : Uri) :
    aget (st.disconnect uri).1.connections uri = none ∧
    (∀ s a, aget st.connections uri = some (.joined s a) →
      ∀ sp, aget st.spaces s = some sp →
        ((adel sp.agents a).length = 0 →
          aget (st.disconnect uri).1.spaces s = none) ∧
        (¬ (adel sp.agents a).length = 0 →
          aget (st.disconnect uri).1.spaces s =
            some { sp with agents := adel sp.agents a } ∧
          aget (adel sp.agents a) a = none)) := by
  constructor
  · rcases hc : aget st.connections uri with _ | cs
    · simp [Sim2h.disconnect, hc, aget_adel_self]
    · cases cs with
      | limbo p => simp [Sim2h.disconnect, hc, aget_adel_self]
      | joined s a =>
        rcases hs : aget st.spaces s with _ | sp
        · simp [Sim2h.disconnect, hc, hs, aget_adel_self]
        · by_cases hz : (adel sp.agents a).length = 0 <;>
            simp [Sim2h.disconnect, hc, hs, Space.removeAgent, hz,
              Sim2h.setSpace, aget_adel_self]
  · intro s a hc sp hs
    constructor
    · intro hz
      simp [Sim2h.disconnect, hc, hs, Space.removeAgent, hz, aget_adel_self]
    · intro hz
      refine ⟨?_, aget_adel_self _ _⟩
      simp [Sim2h.disconnect, hc, hs, Space.removeAgent, hz, Sim2h.setSpace,
        aget_aput_self]

/-- Witness for C4 (amended): disconnecting the last agent of a space. -/
theorem C4_disconnect_postcondition_witness :
    aget (sampleState [(1, .joined 70 5)]
      [(70, { agents := [(5, ⟨1⟩)], allAspects := [], missingByAgent := [] })]
      [1]).connections 1 = some (.joined 70 5) ∧
    aget ((sampleState [(1, .joined 70 5)]
      [(70, { agents := [(5, ⟨1⟩)], allAspects := [], missingByAgent := [] })]
      [1]).disconnect 1).1.connections 1 = none ∧
    aget ((sampleState [(1, .joined 70 5)]
      [(70, { agents := [(5, ⟨1⟩)], allAspects := [], missingByAgent := [] })]
      [1]).disconnect 1).1.spaces 70 = none := by
  refine ⟨by decide, (C4_disconnect_postcondition _ 1).1, ?_⟩
  exact ((C4_disconnect_postcondition (sampleState [(1, .joined 70 5)]
      [(70, { agents := [(5, ⟨1⟩)], allAspects := [], missingByAgent := [] })]
      [1]) 1).2 70 5 (by decide) ⟨[(5, ⟨1⟩)], [], []⟩ (by decide)).1 (by decide)

/-! ## Space-access lemmas -/

theorem getOrCreateSpace_getSpaceD (st : Sim2h) (s : SpaceHash) :
    (st.getOrCreateSpace s).getSpaceD s = st.getSpaceD s := by
  rcases h : aget st.spaces s with _ | sp
  · simp [Sim2h.getOrCreateSpace, Sim2h.getSpaceD, h, aget_aput_self]
  · simp [Sim2h.getOrCreateSpace, Sim2h.getSpaceD, h]

theorem getOrCreateSpace_connections (st : Sim2h) (s : SpaceHash) :
    (st.getOrCreateSpace s).connections = st.connections := by
  rcases h : aget st.spaces s with _ | sp <;> simp [Sim2h.getOrCreateSpace, h]

theorem setSpace_getSpaceD (st : Sim2h) (s : SpaceHash) (sp : Space) :
    (st.setSpace s sp).getSpaceD s = sp := by
  simp [Sim2h.setSpace, Sim2h.getSpaceD, aget_aput_self]

theorem modifySpace_getSpaceD (st : Sim2h) (s : SpaceHash) (f : Space → Space) :
    (st.modifySpace s f).getSpaceD s = f (st.getSpaceD s) := by
  simp [Sim2h.modifySpace, setSpace_getSpaceD, getOrCreateSpace_getSpaceD]

theorem modifySpace_getSpaceD_ne (st : Sim2h) (s s' : SpaceHash)
    (f : Space → Space) (h : ¬ s' = s) :
    (st.modifySpace s f).getSpaceD s' = st.getSpaceD s' := by
  rcases hx : aget st.spaces s with _ | sp <;>
    simp [Sim2h.modifySpace, Sim2h.setSpace, Sim2h.getOrCreateSpace,
      Sim2h.getSpaceD, hx, aget_aput_ne _ _ _ _ h]

/-- `Space::join_agent` succeeds when no different agent claims the URI,
and then registers the agent; with it, `Sim2h::join`'s registration prefix
leaves the connection `Joined` and the agent bound to its URI. -/
theorem joinRegister_success (st : Sim2h) (uri : Uri) (d : SpaceData)
    (hjoinable : ∀ p ∈ (st.getSpaceD d.spaceAddress).agents,
      p.2.uri = uri → p.1 = d.agentId) :
    (st.joinRegister uri d).1 = none ∧
    aget (st.joinRegister uri d).2.connections uri =
      some (.joined d.spaceAddress d.agentId) ∧
    ((st.joinRegister uri d).2.getSpaceD d.spaceAddress).agentIdToUri d.agentId =
      some uri := by
  have hany : ((st.getSpaceD d.spaceAddress).agents.any
      (fun p => decide (p.2.uri = uri) && decide (¬ p.1 = d.agentId))) = false := by
    rw [List.any_eq_false]
    intro p hp
    by_cases hu : p.2.uri = uri
    · simp [hu, hjoinable p hp hu]
    · simp [hu]
  have hsp : ((st.joinConnState uri d).getOrCreateSpace d.spaceAddress).getSpaceD
      d.spaceAddress = st.getSpaceD d.spaceAddress := by
    rw [getOrCreateSpace_getSpaceD]; rfl
  have hagent : (((st.joinConnState uri d).getOrCreateSpace
        d.spaceAddress).getSpaceD d.spaceAddress).joinAgent d.agentId uri =
      some { st.getSpaceD d.spaceAddress with
        agents := aput (st.getSpaceD d.spaceAddress).agents d.agentId ⟨uri⟩ } := by
    rw [hsp]
    simp [Space.joinAgent, hany]
    intro x xi hm hu
    exact hjoinable (x, xi) hm hu
  refine ⟨?_, ?_, ?_⟩
  · simp [Sim2h.joinRegister, hagent]
  · simp only [Sim2h.joinRegister, hagent]
    have hc : ((st.joinConnState uri d).getOrCreateSpace
        d.spaceAddress).connections =
        aput st.connections uri (.joined d.spaceAddress d.agentId) := by
      rw [getOrCreateSpace_connections]; rfl
    simp [Sim2h.setSpace, hc, aget_aput_self]
  · simp only [Sim2h.joinRegister, hagent]
    rw [show ((((st.joinConnState uri d).getOrCreateSpace
        d.spaceAddress).setSpace d.spaceAddress _).getSpaceD d.spaceAddress) = _
      from setSpace_getSpaceD _ _ _]
    simp [Space.agentIdToUri, aget_aput_self]

/-- C1 counterexample: URI `1` is in `Limbo([])` but space `7` already maps
agent `5` to URI `1`.  Agent `9`'s correctly signed `JoinSpace` then fails
`Space::join_agent` (the spec's own proviso): no entry-list request is
sent, the queue is not replayed, and agent `9` is not registered — yet the
claim asserts registration and both list requests for every signed
`JoinSpace` received in limbo. -/
theorem C1_join_collision_breaks_claim :
    ¬ (5 : AgentId) = 9 ∧
    ((sampleState [(1, .limbo [])]
      [(7, { agents := [(5, ⟨1⟩)], allAspects := [], missingByAgent := [] })]
      [1]).handleMessage 1 (.clientToLib3h (.joinSpace ⟨none, 7, 9⟩)) 9).out = [] ∧
    (((sampleState [(1, .limbo [])]
      [(7, { agents := [(5, ⟨1⟩)], allAspects := [], missingByAgent := [] })]
      [1]).handleMessage 1 (.clientToLib3h (.joinSpace ⟨none, 7, 9⟩))
      9).state.getSpaceD 7).agentIdToUri 9 = none ∧
    ((sampleState [(1, .limbo [])]
      [(7, { agents := [(5, ⟨1⟩)], allAspects := [], missingByAgent := [] })]
      [1]).handleMessage 1 (.clientToLib3h (.joinSpace ⟨none, 7, 9⟩)) 9).result =
      .err .uriClaimedByOtherAgent := by
  exact ⟨by decide, by decide, by decide, by decide⟩

/-- C1 (amended): a connection in `Limbo(q)` receiving a `JoinSpace(d)`
whose signer equals `d.agent_id` — provided no different agent already
claims the connection's URI in the space, so that `Space::join_agent`
succeeds — becomes `Joined(d.space_address, d.agent_id)`, the agent is
registered in the space under the connection's URI, a
`HandleGetAuthoringEntryList` and a `HandleGetGossipingEntryList` (both
naming that space and agent) are sent to the URI, and then every message
of `q` is replayed in its original enqueue order (as `handle_message`
calls on the registered state) before anything else. -/
theorem C1_join_registers_and_replays (st : Sim2h) (uri : Uri) (d : SpaceData)
    (q : List WireMessage)
    (hq : aget st.connections uri = some (.limbo q))
    (hjoinable : ∀ p ∈ (st.getSpaceD d.spaceAddress).agents,
      p.2.uri = uri → p.1 = d.agentId) :
    ∃ mid : Sim2h,
      st.joinRegister uri d = (none, mid) ∧
      aget mid.connections uri = some (.joined d.spaceAddress d.agentId) ∧
      (mid.getSpaceD d.spaceAddress).agentIdToUri d.agentId = some uri ∧
      (st.handleMessage uri (.clientToLib3h (.joinSpace d)) d.agentId).out =
        joinRequests uri d ++
          (replayList (fun s' m => handleMessageF 1 s' uri m d.agentId) mid q).2.1 ∧
      (st.handleMessage uri (.clientToLib3h (.joinSpace d)) d.agentId).state =
        (replayList (fun s' m => handleMessageF 1 s' uri m d.agentId) mid q).1 := by
  rcases hr : st.joinRegister uri d with ⟨oe, mid⟩
  obtain ⟨h1, h2, h3⟩ := joinRegister_success st uri d hjoinable
  rw [hr] at h1 h2 h3
  simp only at h1 h2 h3
  subst h1
  have hmsg : st.handleMessage uri (.clientToLib3h (.joinSpace d)) d.agentId =
      joinWith (handleMessageF 1) st uri d := by
    rw [handleMessage_eq_go, go_limbo_join _ _ _ _ _ _ hq, if_neg (by simp)]
  refine ⟨mid, rfl, h2, h3, ?_, ?_⟩ <;> rw [hmsg] <;> simp only [joinWith, hq, hr]

/-- Witness for C1 (amended): agent `9` joins space `7` at URI `1` with a
queued `Pong`. -/
theorem C1_join_registers_and_replays_witness :
    aget (sampleState [(1, .limbo [.pong])] [] [1]).connections 1 =
      some (.limbo [.pong]) ∧
    (∃ mid : Sim2h,
      (sampleState [(1, .limbo [.pong])] [] [1]).joinRegister 1 ⟨none, 7, 9⟩ =
        (none, mid) ∧
      aget mid.connections 1 = some (.joined 7 9) ∧
      (mid.getSpaceD 7).agentIdToUri 9 = some 1 ∧
      ((sampleState [(1, .limbo [.pong])] [] [1]).handleMessage 1
        (.clientToLib3h (.joinSpace ⟨none, 7, 9⟩)) 9).out =
        joinRequests 1 ⟨none, 7, 9⟩ ++
          (replayList (fun s' m => handleMessageF 1 s' 1 m 9) mid [.pong]).2.1 ∧
      ((sampleState [(1, .limbo [.pong])] [] [1]).handleMessage 1
        (.clientToLib3h (.joinSpace ⟨none, 7, 9⟩)) 9).state =
        (replayList (fun s' m => handleMessageF 1 s' 1 m 9) mid [.pong]).1) :=
  ⟨by decide,
    C1_join_registers_and_replays (sampleState [(1, .limbo [.pong])] [] [1]) 1
      ⟨none, 7, 9⟩ [.pong] rfl (fun p hp => by simp [sampleState, Sim2h.getSpaceD,
        aget, Space.new] at hp)⟩

/-- C10: the limbo queue stores bare `WireMessage`s, so a message queued
under provenance `B` carries no record of `B`; when agent `d.agent_id`
then joins, the replay re-handles the queued message with the joining
agent as signer, and the joined-state space/agent check judges it against
the joiner's identity — here a direct message authored by `B` is rejected
as a `SpaceMismatch` against the joiner. -/
theorem C10_replay_attributed_to_joiner (st : Sim2h) (uri : Uri)
    (dm : DirectMessageData) (B : AgentId) (d : SpaceData)
    (hq : aget st.connections uri = some (.limbo []))
    (hfrom : ¬ dm.fromAgentId = d.agentId)
    (hjoinable : ∀ p ∈ (st.getSpaceD d.spaceAddress).agents,
      p.2.uri = uri → p.1 = d.agentId) :
    aget (st.handleMessage uri (.clientToLib3h (.sendDirectMessage dm))
        B).state.connections uri =
      some (.limbo [.clientToLib3h (.sendDirectMessage dm)]) ∧
    ∃ mid : Sim2h,
      (st.handleMessage uri (.clientToLib3h (.sendDirectMessage dm))
          B).state.joinRegister uri d = (none, mid) ∧
      handleMessageF 1 mid uri (.clientToLib3h (.sendDirectMessage dm)) d.agentId =
        ⟨.err .spaceMismatch, mid, []⟩ ∧
      ((st.handleMessage uri (.clientToLib3h (.sendDirectMessage dm))
          B).state.handleMessage uri (.clientToLib3h (.joinSpace d)) d.agentId).out =
        joinRequests uri d ∧
      ((st.handleMessage uri (.clientToLib3h (.sendDirectMessage dm))
          B).state.handleMessage uri (.clientToLib3h (.joinSpace d)) d.agentId).state =
        mid := by
  have hstep1 : st.handleMessage uri (.clientToLib3h (.sendDirectMessage dm)) B =
      ⟨.ok, { st with connections := aput st.connections uri (.limbo ([] ++ [.clientToLib3h (.sendDirectMessage dm)])) }, [.sendMsg B uri (.err .messageWhileInLimbo)]⟩ := by
    rw [handleMessage_eq_go]
    exact go_limbo_queue _ _ _ _ _ _ hq (fun d' => by simp) (by simp) (by simp)
  rw [hstep1]
  simp only [List.nil_append]
  constructor
  · exact aget_aput_self _ _ _
  · rcases hr : ({ st with connections := aput st.connections uri (.limbo [.clientToLib3h (.sendDirectMessage dm)]) } : Sim2h).joinRegister uri d with ⟨oe, mid⟩
    obtain ⟨h1, h2, h3⟩ := joinRegister_success
      ({ st with connections := aput st.connections uri (.limbo [.clientToLib3h (.sendDirectMessage dm)]) } : Sim2h)
      uri d (fun p hp hu => hjoinable p hp hu)
    rw [hr] at h1 h2 h3
    simp only at h1 h2 h3
    subst h1
    have hreplayStep : handleMessageF 1 mid uri
        (.clientToLib3h (.sendDirectMessage dm)) d.agentId =
        ⟨.err .spaceMismatch, mid, []⟩ := by
      rw [show handleMessageF 1 = handleMessageGo (handleMessageF 0) from rfl,
        go_joined _ _ _ _ _ _ h2 (by simp) (by simp)]
      simp only [Sim2h.handleJoined]
      rw [if_pos (Or.inl hfrom)]
    refine ⟨mid, rfl, hreplayStep, ?_, ?_⟩ <;>
      · rw [handleMessage_eq_go,
          go_limbo_join _ _ _ _ _ _ (aget_aput_self _ _ _), if_neg (by simp)]
        simp [joinWith, aget_aput_self, hr, replayList, hreplayStep]

/-- Witness for C10: agent `3` sends a direct message from limbo, agent
`9` then joins; the replay is judged against agent `9` and rejected. -/
theorem C10_replay_attributed_to_joiner_witness :
    aget (sampleState [(1, .limbo [])] [] [1]).connections 1 = some (.limbo []) ∧
    ¬ (3 : AgentId) = 9 ∧
    (aget ((sampleState [(1, .limbo [])] [] [1]).handleMessage 1
        (.clientToLib3h (.sendDirectMessage ⟨7, none, 4, 3, 0⟩))
        3).state.connections 1 =
      some (.limbo [.clientToLib3h (.sendDirectMessage ⟨7, none, 4, 3, 0⟩)]) ∧
    ∃ mid : Sim2h,
      ((sampleState [(1, .limbo [])] [] [1]).handleMessage 1
          (.clientToLib3h (.sendDirectMessage ⟨7, none, 4, 3, 0⟩))
          3).state.joinRegister 1 ⟨none, 7, 9⟩ = (none, mid) ∧
      handleMessageF 1 mid 1
          (.clientToLib3h (.sendDirectMessage ⟨7, none, 4, 3, 0⟩)) 9 =
        ⟨.err .spaceMismatch, mid, []⟩ ∧
      (((sampleState [(1, .limbo [])] [] [1]).handleMessage 1
          (.clientToLib3h (.sendDirectMessage ⟨7, none, 4, 3, 0⟩))
          3).state.handleMessage 1 (.clientToLib3h (.joinSpace ⟨none, 7, 9⟩))
          9).out = joinRequests 1 ⟨none, 7, 9⟩ ∧
      (((sampleState [(1, .limbo [])] [] [1]).handleMessage 1
          (.clientToLib3h (.sendDirectMessage ⟨7, none, 4, 3, 0⟩))
          3).state.handleMessage 1 (.clientToLib3h (.joinSpace ⟨none, 7, 9⟩))
          9).state = mid) :=
  ⟨rfl, by decide,
    C10_replay_attributed_to_joiner (sampleState [(1, .limbo [])] [] [1]) 1
      ⟨7, none, 4, 3, 0⟩ 3 ⟨none, 7, 9⟩ rfl (by decide)
      (fun p hp => by simp [sampleState, Sim2h.getSpaceD, aget, Space.new] at hp)⟩

/-! ## Missing-aspect ledger lemmas -/

/-- Whether the ledger lists `aspect` as missing at `agent` for `entry`. -/
def Space.aspectIsMissing (sp : Space) (agent : AgentId) (entry : EntryHash)
    (aspect : AspectHash) : Bool :=
  match aget sp.missingByAgent agent with
  | none => false
  | some byEntry =>
    match aget byEntry entry with
    | none => false
    | some l => l.contains aspect


theorem contains_filter_ne (l : List AspectHash) (aspect : AspectHash) :
    (l.filter (fun x => decide (¬ x = aspect))).contains aspect = false := by
  induction l with
  | nil => rfl
  | cons x rest ih =>
    by_cases h : x = aspect
    · simp [List.filter_cons, h, ih]
    · simp only [List.filter_cons, h, decide_not, decide_False, Bool.not_false,
        reduceIte, List.contains_cons, ih, Bool.or_false]
      simp [Ne.symm h]

theorem contains_of_filter (p : AspectHash → Bool) (l : List AspectHash)
    (aspect : AspectHash) (h : (l.filter p).contains aspect = true) :
    l.contains aspect = true := by
  have h1 : aspect ∈ l.filter p := by
    simpa using h
  have := (List.mem_filter.mp h1).1
  simpa using this

theorem removeMissing_self (sp : Space) (ag : AgentId) (e : EntryHash)
    (aspect : AspectHash) :
    (sp.removeMissingAspect ag e aspect).aspectIsMissing ag e aspect = false := by
  unfold Space.removeMissingAspect
  split
  · rename_i h1
    simp [Space.aspectIsMissing, h1]
  · rename_i byEntry h1
    split
    · rename_i h2
      simp [Space.aspectIsMissing, h1, h2]
    · rename_i aspects h2
      simp only [Space.aspectIsMissing]
      by_cases hasp : (aspects.filter (fun x => decide (¬ x = aspect))).isEmpty
      · rw [if_pos hasp]
        by_cases hbe : (adel byEntry e).isEmpty
        · simp only [if_pos hbe, aget_adel_self]
        · simp only [if_neg hbe, aget_aput_self, aget_adel_self]
      · rw [if_neg hasp]
        by_cases hbe : (aput byEntry e (aspects.filter (fun x => decide (¬ x = aspect)))).isEmpty
        · simp only [if_pos hbe, aget_adel_self]
        · simp only [if_neg hbe, aget_aput_self, contains_filter_ne]

theorem removeMissing_mono (sp : Space) (ag : AgentId) (e : EntryHash)
    (aspect : AspectHash) (ag' : AgentId) (e' : EntryHash) (aspect' : AspectHash)
    (h : sp.aspectIsMissing ag' e' aspect' = false) :
    (sp.removeMissingAspect ag e aspect).aspectIsMissing ag' e' aspect' = false := by
  unfold Space.removeMissingAspect
  split
  · exact h
  · rename_i byEntry h1
    split
    · exact h
    · rename_i aspects h2
      simp only [Space.aspectIsMissing]
      by_cases hag : ag' = ag
      · subst hag
        by_cases hasp : (aspects.filter (fun x => decide (¬ x = aspect))).isEmpty
        · rw [if_pos hasp]
          by_cases hbe : (adel byEntry e).isEmpty
          · simp only [if_pos hbe, aget_adel_self]
          · simp only [if_neg hbe, aget_aput_self]
            by_cases he : e' = e
            · subst he; simp only [aget_adel_self]
            · rw [aget_adel_ne _ _ _ he]
              have h' := h
              simp only [Space.aspectIsMissing, h1] at h'
              exact h'
        · rw [if_neg hasp]
          by_cases hbe : (aput byEntry e (aspects.filter (fun x => decide (¬ x = aspect)))).isEmpty
          · simp only [if_pos hbe, aget_adel_self]
          · simp only [if_neg hbe, aget_aput_self]
            by_cases he : e' = e
            · subst he
              simp only [aget_aput_self]
              cases hc : (aspects.filter (fun x => decide (¬ x = aspect))).contains aspect'
              · rfl
              · have hmem := contains_of_filter _ _ _ hc
                have h' := h
                simp only [Space.aspectIsMissing, h1, h2] at h'
                rw [hmem] at h'
                exact h'
            · rw [aget_aput_ne _ _ _ _ he]
              have h' := h
              simp only [Space.aspectIsMissing, h1] at h'
              exact h'
      · by_cases hasp : (aspects.filter (fun x => decide (¬ x = aspect))).isEmpty
        · rw [if_pos hasp]
          by_cases hbe : (adel byEntry e).isEmpty
          · rw [if_pos hbe, aget_adel_ne _ _ _ hag]
            exact h
          · rw [if_neg hbe, aget_aput_ne _ _ _ _ hag]
            exact h
        · rw [if_neg hasp]
          by_cases hbe : (aput byEntry e (aspects.filter (fun x => decide (¬ x = aspect)))).isEmpty
          · rw [if_pos hbe, aget_adel_ne _ _ _ hag]
            exact h
          · rw [if_neg hbe, aget_aput_ne _ _ _ _ hag]
            exact h

theorem storeLoop_preserves_false (s : SpaceHash) (provider toAgentId : AgentId)
    (url : Uri) (e : EntryHash) (l : List EntryAspectData) :
    ∀ (st : Sim2h) (ag' : AgentId) (e' : EntryHash) (aspect' : AspectHash),
      (st.getSpaceD s).aspectIsMissing ag' e' aspect' = false →
      (((storeLoop s provider toAgentId url e st l).1).getSpaceD
        s).aspectIsMissing ag' e' aspect' = false := by
  induction l with
  | nil => intro st ag' e' aspect' h; exact h
  | cons asp rest ih =>
    intro st ag' e' aspect' h
    simp only [storeLoop]
    apply ih
    rw [modifySpace_getSpaceD]
    exact removeMissing_mono _ _ _ _ _ _ _ h

theorem storeLoop_removes (s : SpaceHash) (provider toAgentId : AgentId)
    (url : Uri) (e : EntryHash) (l : List EntryAspectData) :
    ∀ (st : Sim2h), ∀ asp ∈ l,
      (((storeLoop s provider toAgentId url e st l).1).getSpaceD
        s).aspectIsMissing toAgentId e asp.aspectAddress = false := by
  induction l with
  | nil => intro st asp hasp; cases hasp
  | cons a0 rest ih =>
    intro st asp hasp
    rcases List.mem_cons.mp hasp with hh | hh
    · subst hh
      simp only [storeLoop]
      apply storeLoop_preserves_false
      rw [modifySpace_getSpaceD]
      exact removeMissing_self _ _ _ _
    · simp only [storeLoop]
      exact ih _ asp hh

theorem storeLoop_out (s : SpaceHash) (provider toAgentId : AgentId)
    (url : Uri) (e : EntryHash) (l : List EntryAspectData) (st : Sim2h) :
    (storeLoop s provider toAgentId url e st l).2 =
      l.map (fun asp => OutCmd.sendMsg toAgentId url
        (.lib3hToClient (.handleStoreEntryAspect ⟨none, s, provider, e, asp⟩))) := by
  induction l generalizing st with
  | nil => rfl
  | cons a0 rest ih => simp [storeLoop, ih]

/-- C8: an accepted `HandleFetchEntryResult` routes on its `request_id`:
an empty id means authored content and triggers new-entry ingest; a
non-empty id names the destination agent — unknown destination is a
successful no-op, a known one gets every returned aspect removed from its
missing ledger and one `HandleStoreEntryAspect` per aspect sent to its
URI. -/
theorem C8_fetch_result_routing (st : Sim2h) (uri : Uri) (s : SpaceHash)
    (a : AgentId) (fr : FetchEntryResultData)
    (hq : aget st.connections uri = some (.joined s a))
    (ha : fr.providerAgentId = a) (hs : fr.spaceAddress = s) :
    (fr.requestId = none →
      (st.handleMessage uri (.lib3hToClientResponse (.handleFetchEntryResult fr))
          a).result = .ok ∧
      (st.handleMessage uri (.lib3hToClientResponse (.handleFetchEntryResult fr))
          a).state = (st.handleNewEntryData fr.entry s a).1 ∧
      (st.handleMessage uri (.lib3hToClientResponse (.handleFetchEntryResult fr))
          a).out = (st.handleNewEntryData fr.entry s a).2) ∧
    (∀ dest, fr.requestId = some dest →
      (st.lookupJoined s dest = none →
        st.handleMessage uri (.lib3hToClientResponse (.handleFetchEntryResult fr))
          a = ⟨.ok, st, []⟩) ∧
      (∀ url, st.lookupJoined s dest = some url →
        (st.handleMessage uri (.lib3hToClientResponse (.handleFetchEntryResult fr))
            a).result = .ok ∧
        (st.handleMessage uri (.lib3hToClientResponse (.handleFetchEntryResult fr))
            a).out = fr.entry.aspectList.map (fun asp =>
              OutCmd.sendMsg dest url (.lib3hToClient (.handleStoreEntryAspect
                ⟨none, s, a, fr.entry.entryAddress, asp⟩))) ∧
        ∀ asp ∈ fr.entry.aspectList,
          ((st.handleMessage uri
              (.lib3hToClientResponse (.handleFetchEntryResult fr))
              a).state.getSpaceD s).aspectIsMissing dest fr.entry.entryAddress
            asp.aspectAddress = false)) := by
  have hdisp : st.handleMessage uri
      (.lib3hToClientResponse (.handleFetchEntryResult fr)) a =
      st.handleJoined uri s a
        (.lib3hToClientResponse (.handleFetchEntryResult fr)) := by
    rw [handleMessage_eq_go]
    exact go_joined _ _ _ _ _ _ hq (by simp) (by simp)
  rw [hdisp]
  have hcond : ¬ (¬ fr.providerAgentId = a ∨ ¬ fr.spaceAddress = s) := by
    simp [ha, hs]
  constructor
  · intro hrid
    simp [Sim2h.handleJoined, hcond, hrid]
  · intro dest hrid
    constructor
    · intro hl
      simp [Sim2h.handleJoined, hcond, hrid, hl]
    · intro url hl
      refine ⟨?_, ?_, ?_⟩
      · simp [Sim2h.handleJoined, hcond, hrid, hl]
      · simp [Sim2h.handleJoined, hcond, hrid, hl, storeLoop_out]
      · intro asp hasp
        simp only [Sim2h.handleJoined, hcond, hrid, hl, if_neg, reduceIte]
        exact storeLoop_removes _ _ _ _ _ _ _ asp hasp

/-- The space of the C8 witness: agents `5` at URI `1` and `7` at URI `3`,
entry `100` with aspects `201`,`202` known, agent `7` missing `202`. -/
def C8space : Space :=
  { agents := [(5, ⟨1⟩), (7, ⟨3⟩)], allAspects := [(100, [201, 202])], missingByAgent := [(7, [(100, [202])])] }

/-- The switchboard state of the C8 witness. -/
def C8state : Sim2h := sampleState [(1, .joined 70 5)] [(70, C8space)] [1, 3]

/-- Witness for C8: agent `5` returns aspect `202` of entry `100` for
destination agent `7`, who is missing it. -/
theorem C8_fetch_result_routing_witness :
    aget C8state.connections 1 = some (.joined 70 5) ∧
    C8state.lookupJoined 70 7 = some 3 ∧
    (C8state.handleMessage 1 (.lib3hToClientResponse (.handleFetchEntryResult
      ⟨70, 5, some 7, ⟨100, [⟨202, 0⟩]⟩⟩)) 5).result = .ok ∧
    (C8state.handleMessage 1 (.lib3hToClientResponse (.handleFetchEntryResult
      ⟨70, 5, some 7, ⟨100, [⟨202, 0⟩]⟩⟩)) 5).out =
      (⟨100, [⟨202, 0⟩]⟩ : EntryData).aspectList.map (fun asp =>
        OutCmd.sendMsg 7 3 (.lib3hToClient (.handleStoreEntryAspect
          ⟨none, 70, 5, 100, asp⟩))) ∧
    ((C8state.handleMessage 1 (.lib3hToClientResponse (.handleFetchEntryResult
      ⟨70, 5, some 7, ⟨100, [⟨202, 0⟩]⟩⟩)) 5).state.getSpaceD
      70).aspectIsMissing 7 100 202 = false := by
  have h := (C8_fetch_result_routing C8state 1 70 5
      ⟨70, 5, some 7, ⟨100, [⟨202, 0⟩]⟩⟩ rfl rfl rfl).2 7 rfl
  refine ⟨by decide, by decide, ?_, ?_, ?_⟩
  · exact (h.2 3 (by decide)).1
  · exact (h.2 3 (by decide)).2.1
  · exact (h.2 3 (by decide)).2.2 ⟨202, 0⟩ (by decide)

/-- Whether the space's `all_aspects` records `aspect` under `entry`. -/
def Space.hasAspect (sp : Space) (entry : EntryHash) (aspect : AspectHash) : Bool :=
  match aget sp.allAspects entry with
  | none => false
  | some l => l.contains aspect

theorem addAspect_self (sp : Space) (e : EntryHash) (aspect : AspectHash) :
    (sp.addAspect e aspect).hasAspect e aspect = true := by
  unfold Space.addAspect
  rcases h : aget sp.allAspects e with _ | l
  · simp [Space.hasAspect, aget_aput_self]
  · by_cases hm : aspect ∈ l
    · simp [hm, Space.hasAspect, h]
    · simp [hm, Space.hasAspect, aget_aput_self]

theorem addAspect_mono (sp : Space) (e : EntryHash) (aspect : AspectHash)
    (e' : EntryHash) (aspect' : AspectHash)
    (h : sp.hasAspect e' aspect' = true) :
    (sp.addAspect e aspect).hasAspect e' aspect' = true := by
  unfold Space.addAspect
  rcases hg : aget sp.allAspects e with _ | l
  · by_cases he : e' = e
    · subst he
      simp [Space.hasAspect, hg] at h
    · simp only [Space.hasAspect, aget_aput_ne _ _ _ _ he]
      exact h
  · by_cases hm : aspect ∈ l
    · simpa [hm] using h
    · by_cases he : e' = e
      · subst he
        simp only [hm, reduceIte, Space.hasAspect, aget_aput_self]
        simp only [Space.hasAspect, hg] at h
        have h' : aspect' ∈ l := by simpa using h
        simp [List.mem_append, h']
      · simp only [hm, reduceIte, Space.hasAspect, aget_aput_ne _ _ _ _ he]
        exact h

theorem newEntryLoop_hasAspect_mono (agents : List (AgentId × AgentInfo))
    (s : SpaceHash) (provider : AgentId) (e : EntryHash)
    (l : List EntryAspectData) :
    ∀ (st : Sim2h) (e' : EntryHash) (aspect' : AspectHash),
      (st.getSpaceD s).hasAspect e' aspect' = true →
      (((newEntryLoop agents s provider e st l).1).getSpaceD s).hasAspect e'
        aspect' = true := by
  induction l with
  | nil => intro st e' a' h; exact h
  | cons asp rest ih =>
    intro st e' a' h
    simp only [newEntryLoop]
    apply ih
    rw [modifySpace_getSpaceD]
    exact addAspect_mono _ _ _ _ _ h

theorem newEntryLoop_adds (agents : List (AgentId × AgentInfo)) (s : SpaceHash)
    (provider : AgentId) (e : EntryHash) (l : List EntryAspectData) :
    ∀ (st : Sim2h), ∀ asp ∈ l,
      (((newEntryLoop agents s provider e st l).1).getSpaceD s).hasAspect e
        asp.aspectAddress = true := by
  induction l with
  | nil => intro st asp hasp; cases hasp
  | cons a0 rest ih =>
    intro st asp hasp
    rcases List.mem_cons.mp hasp with hh | hh
    · subst hh
      simp only [newEntryLoop]
      apply newEntryLoop_hasAspect_mono
      rw [modifySpace_getSpaceD]
      exact addAspect_self _ _ _
    · simp only [newEntryLoop]
      exact ih _ asp hh

theorem newEntryLoop_out (agents : List (AgentId × AgentInfo)) (s : SpaceHash)
    (provider : AgentId) (e : EntryHash) (l : List EntryAspectData)
    (st : Sim2h) :
    (newEntryLoop agents s provider e st l).2 =
      l.flatMap (fun asp => agents.map (fun p =>
        OutCmd.sendMsg p.1 p.2.uri (.lib3hToClient (.handleStoreEntryAspect
          ⟨none, s, provider, e, asp⟩)))) := by
  induction l generalizing st with
  | nil => rfl
  | cons a0 rest ih => simp [newEntryLoop, ih]

/-- The number of `HandleStoreEntryAspect` sends for aspect `aspect`
addressed to agent `g` in an outbound list. -/
def storeCount (outs : List OutCmd) (g : AgentId) (aspect : AspectHash) : Nat :=
  (outs.filter (fun c =>
    match c with
    | .sendMsg g' _ (.lib3hToClient (.handleStoreEntryAspect sd)) =>
      decide (g' = g) && decide (sd.entryAspect.aspectAddress = aspect)
    | _ => false)).length

theorem storeCount_append (xs ys : List OutCmd) (g : AgentId)
    (aspect : AspectHash) :
    storeCount (xs ++ ys) g aspect = storeCount xs g aspect + storeCount ys g aspect := by
  simp [storeCount, List.filter_append]

theorem storeCount_block (agents : List (AgentId × AgentInfo)) (s : SpaceHash)
    (provider : AgentId) (e : EntryHash) (asp : EntryAspectData) (g : AgentId)
    (aspect : AspectHash) :
    storeCount (agents.map (fun p => OutCmd.sendMsg p.1 p.2.uri
        (.lib3hToClient (.handleStoreEntryAspect ⟨none, s, provider, e, asp⟩))))
      g aspect =
      if asp.aspectAddress = aspect
      then (agents.filter (fun p => decide (p.1 = g))).length
      else 0 := by
  induction agents with
  | nil => by_cases h : asp.aspectAddress = aspect <;> simp [storeCount, h]
  | cons p rest ih =>
    simp only [List.map_cons, storeCount, List.filter_cons] at ih ⊢
    by_cases ha : asp.aspectAddress = aspect <;> by_cases hg : p.1 = g <;>
      simp [ha, hg] at ih ⊢ <;> try exact ih

theorem storeCount_flatMap (l : List EntryAspectData)
    (agents : List (AgentId × AgentInfo)) (s : SpaceHash) (provider : AgentId)
    (e : EntryHash) (g : AgentId) (aspect : AspectHash) :
    storeCount (l.flatMap (fun asp => agents.map (fun p =>
        OutCmd.sendMsg p.1 p.2.uri (.lib3hToClient (.handleStoreEntryAspect
          ⟨none, s, provider, e, asp⟩))))) g aspect =
      (l.filter (fun asp => decide (asp.aspectAddress = aspect))).length *
        (agents.filter (fun p => decide (p.1 = g))).length := by
  induction l with
  | nil => simp [storeCount]
  | cons a0 rest ih =>
    simp only [List.flatMap_cons, storeCount_append, storeCount_block, ih,
      List.filter_cons]
    by_cases ha : a0.aspectAddress = aspect <;> (simp [ha, Nat.add_mul]; try omega)

theorem filter_key_len_zero {β : Type} (f : β → Nat) (l : List β) (k : Nat)
    (hk : ¬ k ∈ l.map f) :
    (l.filter (fun y => decide (f y = k))).length = 0 := by
  induction l with
  | nil => rfl
  | cons y rest ih =>
    simp only [List.map_cons, List.mem_cons] at hk
    push_neg at hk
    have hne : ¬ f y = k := fun e => hk.1 e.symm
    simp only [List.filter_cons]
    rw [if_neg (by simp [hne])]
    exact ih (by simpa using hk.2)

theorem filter_key_len_one {β : Type} (f : β → Nat) (l : List β)
    (hnd : (l.map f).Nodup) (x : β) (hx : x ∈ l) :
    (l.filter (fun y => decide (f y = f x))).length = 1 := by
  induction l with
  | nil => cases hx
  | cons y rest ih =>
    simp only [List.map_cons, List.nodup_cons] at hnd
    rcases List.mem_cons.mp hx with hh | hh
    · rw [show f x = f y from congrArg f hh]
      simp only [List.filter_cons]
      rw [if_pos (by simp), List.length_cons]
      rw [filter_key_len_zero f rest (f y) hnd.1]
    · have hne : ¬ f y = f x := by
        intro he
        exact hnd.1 (he ▸ List.mem_map_of_mem f hh)
      simp only [List.filter_cons]
      rw [if_neg (by simp [hne])]
      exact ih hnd.2 hh

theorem handleNewEntryData_fullSync (st : Sim2h) (ed : EntryData)
    (s : SpaceHash) (provider : AgentId)
    (hdht : st.dhtAlgorithm = .fullSync) :
    st.handleNewEntryData ed s provider =
      newEntryLoop
        ((st.getSpaceD s).agents.filter (fun p => decide (¬ p.1 = provider)))
        s provider ed.entryAddress (st.getOrCreateSpace s) ed.aspectList := by
  simp only [Sim2h.handleNewEntryData, hdht, Sim2h.allAgentsExceptOne,
    getOrCreateSpace_getSpaceD]

/-- C7: under `FullSync`, a published entry (via `PublishEntry` or via a
`HandleFetchEntryResult` with empty `request_id`, which both invoke the
same new-entry ingest) has each aspect recorded in the space's
`all_aspects`, and exactly one `HandleStoreEntryAspect` per aspect is sent
to every agent currently in the space except the provider, and none to
the provider. -/
theorem C7_fullsync_publish_broadcast (st : Sim2h) (uri : Uri) (s : SpaceHash)
    (provider : AgentId) (pd : ProvidedEntryData) (fr : FetchEntryResultData)
    (hdht : st.dhtAlgorithm = .fullSync)
    (hq : aget st.connections uri = some (.joined s provider))
    (hpa : pd.providerAgentId = provider) (hps : pd.spaceAddress = s)
    (hfa : fr.providerAgentId = provider) (hfs : fr.spaceAddress = s)
    (hfrid : fr.requestId = none) (hfe : fr.entry = pd.entry)
    (ndA : ((st.getSpaceD s).agents.map Prod.fst).Nodup)
    (ndAsp : (pd.entry.aspectList.map EntryAspectData.aspectAddress).Nodup) :
    (st.handleMessage uri (.clientToLib3h (.publishEntry pd)) provider).result =
      .ok ∧
    (st.handleMessage uri (.lib3hToClientResponse (.handleFetchEntryResult fr))
      provider).result = .ok ∧
    (st.handleMessage uri (.lib3hToClientResponse (.handleFetchEntryResult fr))
      provider).state =
      (st.handleMessage uri (.clientToLib3h (.publishEntry pd)) provider).state ∧
    (st.handleMessage uri (.lib3hToClientResponse (.handleFetchEntryResult fr))
      provider).out =
      (st.handleMessage uri (.clientToLib3h (.publishEntry pd)) provider).out ∧
    (∀ asp ∈ pd.entry.aspectList,
      ((st.handleMessage uri (.clientToLib3h (.publishEntry pd))
        provider).state.getSpaceD s).hasAspect pd.entry.entryAddress
        asp.aspectAddress = true) ∧
    (∀ asp ∈ pd.entry.aspectList,
      storeCount (st.handleMessage uri (.clientToLib3h (.publishEntry pd))
        provider).out provider asp.aspectAddress = 0 ∧
      ∀ g, g ∈ (st.getSpaceD s).agents.map Prod.fst → ¬ g = provider →
        storeCount (st.handleMessage uri (.clientToLib3h (.publishEntry pd))
          provider).out g asp.aspectAddress = 1) := by
  have hd1 : st.handleMessage uri (.clientToLib3h (.publishEntry pd)) provider =
      ⟨.ok, (st.handleNewEntryData pd.entry s provider).1,
        (st.handleNewEntryData pd.entry s provider).2⟩ := by
    rw [handleMessage_eq_go, go_joined _ _ _ _ _ _ hq (by simp) (by simp)]
    simp only [Sim2h.handleJoined]
    rw [if_neg (by simp [hpa, hps])]
  have hd2 : st.handleMessage uri
      (.lib3hToClientResponse (.handleFetchEntryResult fr)) provider =
      ⟨.ok, (st.handleNewEntryData pd.entry s provider).1,
        (st.handleNewEntryData pd.entry s provider).2⟩ := by
    rw [handleMessage_eq_go, go_joined _ _ _ _ _ _ hq (by simp) (by simp)]
    simp only [Sim2h.handleJoined]
    rw [if_neg (by simp [hfa, hfs])]
    simp only [hfrid, hfe]
  have hnew := handleNewEntryData_fullSync st pd.entry s provider hdht
  refine ⟨by rw [hd1], by rw [hd2], by rw [hd1, hd2], by rw [hd1, hd2], ?_, ?_⟩
  · intro asp hasp
    rw [hd1]
    simp only [hnew]
    exact newEntryLoop_adds _ _ _ _ _ _ asp hasp
  · intro asp hasp
    have hout : (st.handleMessage uri (.clientToLib3h (.publishEntry pd))
        provider).out =
        pd.entry.aspectList.flatMap (fun asp =>
          ((st.getSpaceD s).agents.filter
            (fun p => decide (¬ p.1 = provider))).map (fun p =>
            OutCmd.sendMsg p.1 p.2.uri (.lib3hToClient (.handleStoreEntryAspect
              ⟨none, s, provider, pd.entry.entryAddress, asp⟩)))) := by
      rw [hd1]
      simp only [hnew, newEntryLoop_out]
    have haspcnt : (pd.entry.aspectList.filter
        (fun y => decide (y.aspectAddress = asp.aspectAddress))).length = 1 :=
      filter_key_len_one EntryAspectData.aspectAddress _ ndAsp asp hasp
    constructor
    · rw [hout, storeCount_flatMap]
      have hz : ((((st.getSpaceD s).agents.filter
          (fun p => decide (¬ p.1 = provider))).filter
          (fun p => decide (p.1 = provider))).length) = 0 := by
        apply filter_key_len_zero Prod.fst
        simp only [List.mem_map]
        rintro ⟨p, hp, hfp⟩
        have := (List.mem_filter.mp hp).2
        simp [hfp] at this
      rw [hz, Nat.mul_zero]
    · intro g hg hgp
      rw [hout, storeCount_flatMap]
      obtain ⟨p, hpmem, hp1⟩ := List.mem_map.mp hg
      have hpd : p ∈ (st.getSpaceD s).agents.filter
          (fun p => decide (¬ p.1 = provider)) :=
        List.mem_filter.mpr ⟨hpmem, by simp [hp1, hgp]⟩
      have ndD : (((st.getSpaceD s).agents.filter
          (fun p => decide (¬ p.1 = provider))).map Prod.fst).Nodup :=
        ((List.filter_sublist _).map Prod.fst).nodup ndA
      have hone := filter_key_len_one Prod.fst _ ndD p hpd
      rw [← hp1, hone, haspcnt, Nat.one_mul]

/-- The space of the C7 witness: agents `5`,`6`,`7` at URIs `1`,`2`,`3`. -/
def C7space : Space :=
  { agents := [(5, ⟨1⟩), (6, ⟨2⟩), (7, ⟨3⟩)], allAspects := [], missingByAgent := [] }

/-- The switchboard state of the C7 witness. -/
def C7state : Sim2h := sampleState [(1, .joined 70 5)] [(70, C7space)] [1, 2, 3]

/-- Witness for C7: agent `5` publishes entry `100` with aspects
`201`,`202` into a three-agent space; each non-provider gets exactly one
store request per aspect, the provider none. -/
theorem C7_fullsync_publish_broadcast_witness :
    (C7state.handleMessage 1 (.clientToLib3h (.publishEntry
      ⟨70, 5, ⟨100, [⟨201, 0⟩, ⟨202, 0⟩]⟩⟩)) 5).result = .ok ∧
    (C7state.handleMessage 1 (.lib3hToClientResponse (.handleFetchEntryResult
      ⟨70, 5, none, ⟨100, [⟨201, 0⟩, ⟨202, 0⟩]⟩⟩)) 5).result = .ok ∧
    ((C7state.handleMessage 1 (.clientToLib3h (.publishEntry
      ⟨70, 5, ⟨100, [⟨201, 0⟩, ⟨202, 0⟩]⟩⟩)) 5).state.getSpaceD 70).hasAspect
      100 201 = true ∧
    storeCount (C7state.handleMessage 1 (.clientToLib3h (.publishEntry
      ⟨70, 5, ⟨100, [⟨201, 0⟩, ⟨202, 0⟩]⟩⟩)) 5).out 5 201 = 0 ∧
    storeCount (C7state.handleMessage 1 (.clientToLib3h (.publishEntry
      ⟨70, 5, ⟨100, [⟨201, 0⟩, ⟨202, 0⟩]⟩⟩)) 5).out 6 201 = 1 := by
  have h := C7_fullsync_publish_broadcast C7state 1 70 5
    ⟨70, 5, ⟨100, [⟨201, 0⟩, ⟨202, 0⟩]⟩⟩ ⟨70, 5, none, ⟨100, [⟨201, 0⟩, ⟨202, 0⟩]⟩⟩
    rfl rfl rfl rfl rfl rfl rfl rfl (by decide) (by decide)
  refine ⟨h.1, h.2.1, ?_, ?_, ?_⟩
  · exact h.2.2.2.2.1 ⟨201, 0⟩ (by decide)
  · exact (h.2.2.2.2.2 ⟨201, 0⟩ (by decide)).1
  · exact (h.2.2.2.2.2 ⟨201, 0⟩ (by decide)).2 6 (by decide) (by decide)
